import Mathlib

/-!
slackkb: a verification development

A shallow embedding of `slackkb.go` (a zKillboard to Slack relay) and theorems
about its dedup cache, its permissive decoder, its per-cycle filter, its
emission loop and its polling loop.

Conventions of the embedding

* `time.Time` values are instants: integers counting nanoseconds since the Unix
  epoch (every time the program handles is in UTC and carries no monotonic
  reading, since `main` calls `.UTC()` and `time.Parse` yields UTC).
* `float64` is `Float64`: a finite value is its exact rational value, next to
  the two infinities and NaN; comparisons follow IEEE 754 (NaN compares false).
* `interface{}` values coming out of a decoded element are `Val`.
* Go maps are association lists without duplicate keys (`AList`); ranging over
  a map visits the entries in the order of the list.
* calls into the outside world (HTTP, the JSON decoder, `strconv.ParseFloat`,
  the clock) are parameters; `log.Printf` lines are not modelled.
* the endless loop of `main` is run on finite sequences of inputs, one input
  per iteration.
-/

namespace Slackkb

/-! ## Package `time` -/

/-- Go `time.Time`: nanoseconds since 1970-01-01 00:00:00 UTC. -/
abbrev Time := Int

/-- Go `time.Duration`: a count of nanoseconds. -/
abbrev Duration := Int

/-- Go `time.Millisecond`. -/
def Millisecond : Duration := 1000000

/-- Go `time.Second`. -/
def Second : Duration := 1000 * Millisecond

/-- Go `time.Minute`. -/
def Minute : Duration := 60 * Second

/-- Go `time.Hour`. -/
def Hour : Duration := 60 * Minute

/-- Go `t.Add(d)`. -/
def Time.Add (t : Time) (d : Duration) : Time := t + d

/-- Go `t.After(u)`: t is strictly later than u. -/
def Time.After (t u : Time) : Bool := decide (u < t)

/-- Go `t.Before(u)`: t is strictly earlier than u. -/
def Time.Before (t u : Time) : Bool := decide (t < u)

/-- Value of a decimal digit character. -/
def digitVal (c : Char) : Nat := c.toNat - 48

/-- Go `getnum(s, fixed)` of package time: one or two leading decimal digits
(exactly two when `fixed`). -/
def getnum (s : List Char) (fixed : Bool) : Option (Nat × List Char) :=
  match s with
  | [] => none
  | a :: rest =>
    if a.isDigit then
      match rest with
      | [] => if fixed then none else some (digitVal a, [])
      | b :: rest2 =>
        if b.isDigit then some (digitVal a * 10 + digitVal b, rest2)
        else if fixed then none else some (digitVal a, rest)
    else none

/-- The `stdLongYear` chunk: exactly four decimal digits. -/
def getyear (s : List Char) : Option (Nat × List Char) :=
  match s with
  | a :: b :: c :: d :: rest =>
    if a.isDigit && b.isDigit && c.isDigit && d.isDigit then
      some (digitVal a * 1000 + digitVal b * 100 + digitVal c * 10 + digitVal d, rest)
    else none
  | _ => none

/-- Go `skip(value, "-")` or `skip(value, ":")`: one literal character. -/
def skipChar (c : Char) (s : List Char) : Option (List Char) :=
  match s with
  | [] => none
  | a :: rest => if a = c then some rest else none

/-- Go `skip(value, " ")`: a run of spaces in the value stands for the space
of the layout; a value that goes on with another character is refused. -/
def skipSpace (s : List Char) : Option (List Char) :=
  match s with
  | [] => some []
  | a :: rest => if a = ' ' then some (rest.dropWhile (fun c => c == ' ')) else none

/-- The fractional second that `time.Parse` accepts after the seconds although
the layout has none: a period or comma and a run of digits, of which the first
nine count. Returns the nanoseconds and the rest of the value. -/
def parseFraction (s : List Char) : Nat × List Char :=
  match s with
  | c :: d :: rest =>
    if (c = '.' || c = ',') && d.isDigit then
      let ds := ((d :: rest).takeWhile Char.isDigit).take 9
      (ds.foldl (fun n x => n * 10 + digitVal x) 0 * 10 ^ (9 - ds.length),
        (d :: rest).dropWhile Char.isDigit)
    else (0, s)
  | _ => (0, s)

/-- Leap years of the proleptic Gregorian calendar. -/
def isLeap (year : Nat) : Bool :=
  year % 4 == 0 && (year % 100 != 0 || year % 400 == 0)

/-- Go `daysIn(month, year)`. -/
def daysIn (month year : Nat) : Nat :=
  if month = 2 then (if isLeap year then 29 else 28)
  else if month = 4 || month = 6 || month = 9 || month = 11 then 30
  else 31

/-- Days of the year that precede the first day of `month`. -/
def daysBeforeMonth (month year : Nat) : Nat :=
  ((List.range (month - 1)).map (fun m => daysIn (m + 1) year)).sum

/-- Days from 0000-01-01 to the first day of `year`. -/
def daysBeforeYear (year : Nat) : Nat :=
  365 * year + (year + 3) / 4 - (year + 99) / 100 + (year + 399) / 400

/-- Go `time.Date(year, month, day, hour, min, sec, nsec, time.UTC)` for
fields already in range. -/
def Date (year month day hour min sec nsec : Nat) : Time :=
  let days : Int := (daysBeforeYear year + daysBeforeMonth month year + (day - 1) : Nat) - 719528
  ((days * 86400 + hour * 3600 + min * 60 + sec) * 1000000000 + nsec : Int)

/-- Go `time.Parse(ZkbKillTimeFormat, s)` with
`ZkbKillTimeFormat = "2006-01-02 15:04:05"`, `none` standing for a non-nil
error: four-digit year, two-digit month and day, an hour of one or two digits,
two-digit minute and second, an optional fractional second, every field in
range and no text left over. -/
def parseKillTime (s : String) : Option Time :=
  match getyear s.data with
  | none => none
  | some (year, v) =>
  match skipChar '-' v with
  | none => none
  | some v =>
  match getnum v true with
  | none => none
  | some (month, v) =>
  match skipChar '-' v with
  | none => none
  | some v =>
  match getnum v true with
  | none => none
  | some (day, v) =>
  match skipSpace v with
  | none => none
  | some v =>
  match getnum v false with
  | none => none
  | some (hour, v) =>
  match skipChar ':' v with
  | none => none
  | some v =>
  match getnum v true with
  | none => none
  | some (min, v) =>
  match skipChar ':' v with
  | none => none
  | some v =>
  match getnum v true with
  | none => none
  | some (sec, v) =>
    let (nsec, v) := parseFraction v
    if month = 0 || 12 < month || 24 ≤ hour || 60 ≤ min || 60 ≤ sec then none
    else if !v.isEmpty then none
    else if day < 1 || daysIn month year < day then none
    else some (Date year month day hour min sec nsec)

/-! ## Values and records -/

/-- Go `float64`. -/
inductive Float64 where
  | finite (q : ℚ)
  | posInf
  | negInf
  | nan

/-- Go `x < y` on `float64`. -/
def Float64.lt : Float64 → Float64 → Bool
  | .finite a, .finite b => decide (a < b)
  | .finite _, .posInf => true
  | .negInf, .finite _ => true
  | .negInf, .posInf => true
  | _, _ => false

/-- Go `x >= y` on `float64`. -/
def Float64.ge : Float64 → Float64 → Bool
  | .finite a, .finite b => decide (b ≤ a)
  | .finite _, .negInf => true
  | .posInf, .finite _ => true
  | .posInf, .negInf => true
  | .posInf, .posInf => true
  | .negInf, .negInf => true
  | _, _ => false

/-- Truncation of a rational toward zero. -/
def truncToZero (q : ℚ) : Int := if 0 ≤ q then ⌊q⌋ else ⌈q⌉

/-- The values the Go `int` type (64 bits) can hold. -/
def inIntRange (n : Int) : Prop := -(2 : Int) ^ 63 ≤ n ∧ n < (2 : Int) ^ 63

instance (n : Int) : Decidable (inIntRange n) := by
  unfold inIntRange; infer_instance

/-- A dynamically typed value found in a decoded element (`interface{}`): the
JSON shapes and Go `int`, which `valtostring` also has a case for. -/
inductive Val where
  | str (s : String)
  | int (n : Int)
  | float (f : Float64)
  | bool (b : Bool)
  | null
  | list (xs : List Val)
  | map (kvs : List (String × Val))

/-- Go `map[string]interface{}`: `List.lookup` is the map index expression. -/
abbrev JObject := List (String × Val)

/-- What the embedding takes from the Go runtime and standard library. -/
structure GoRuntime where
  /-- `strconv.ParseFloat(s, 64)`: `some f` when the error is nil. -/
  parseFloat : String → Option Float64
  /-- `json.NewDecoder(body).Decode(&killmaps)`: `some` when the error is nil. -/
  jsonDecode : String → Option (List JObject)
  /-- `int(f)` for a float whose truncation does not fit `int` (Go leaves the
  result to the implementation). -/
  intOfFloatOutOfRange : Float64 → Int

/-- Go conversion `int(f)` of a `float64`. -/
def GoRuntime.floatToInt (rt : GoRuntime) (f : Float64) : Int :=
  match f with
  | .finite q => if inIntRange (truncToZero q) then truncToZero q else rt.intOfFloatOutOfRange f
  | _ => rt.intOfFloatOutOfRange f

/-- Go `fmt.Sprintf("%d", n)`. -/
def sprintfD (n : Int) : String := toString n

/-- The record of one kill. -/
structure KillData where
  KillID : String
  KillTime : Time
  SystemID : String
  Value : Float64

/-- Source `valtostring`: `none` is the result `("", false)`. -/
def valtostring (rt : GoRuntime) (v : Val) : Option String :=
  match v with
  | .str tv => some tv
  | .int tv => some (sprintfD tv)
  | .float tv => some (sprintfD (rt.floatToInt tv))
  | _ => none

/-- The errors of `parseone`. -/
inductive ParseError where
  | noKillID
  | idNotString
  | noTime
  | timeNotString
  | badTime
  deriving DecidableEq

/-- Source `parseone`, lines 307 to 341: the value of the kill, read from
`zkb.totalValue`, starting from the zero value. -/
def parseValue (rt : GoRuntime) (k : JObject) : Float64 :=
  match k.lookup "zkb" with
  | none => .finite 0
  | some sub =>
    match sub with
    | .map subm =>
      match subm.lookup "totalValue" with
      | none => .finite 0
      | some killval =>
        match killval with
        | .float price => price
        | .str vals =>
          match rt.parseFloat vals with
          | none => .finite 0
          | some price => price
        | _ => .finite 0
    | _ => .finite 0

/-- Source `parseone`, lines 299 to 305: the system, empty unless
`solarSystemID` is there and converts. -/
def parseSystem (rt : GoRuntime) (k : JObject) : String :=
  match k.lookup "solarSystemID" with
  | none => ""
  | some ssv =>
    match valtostring rt ssv with
    | none => ""
    | some ssvs => ssvs

/-- Source `parseone`. -/
def parseone (rt : GoRuntime) (k : JObject) : Except ParseError KillData :=
  match k.lookup "killID" with
  | none => .error .noKillID
  | some v =>
    match valtostring rt v with
    | none => .error .idNotString
    | some vs =>
      match k.lookup "killTime" with
      | none => .error .noTime
      | some ktv =>
        match valtostring rt ktv with
        | none => .error .timeNotString
        | some kts =>
          match parseKillTime kts with
          | none => .error .badTime
          | some kt =>
            .ok { KillID := vs, KillTime := kt, SystemID := parseSystem rt k,
                  Value := parseValue rt k }

/-! ## Decoding a batch -/

/-- Outcome of `http.Get` or `http.Post`: a transport error, or a response
with its status code and body. -/
inductive HttpResult where
  | error
  | response (statusCode : Nat) (body : String)

/-- The errors of `getanddecode`. -/
inductive FetchError where
  | transport
  | non200 (statusCode : Nat) (body : String)
  | decode
  deriving DecidableEq

/-- Source `getanddecode`, lines 251 to 260: the loop that builds the records,
appending `kd` when `parseone` succeeds and going on to the next element when
it fails. -/
def buildKills (rt : GoRuntime) (killmaps : List JObject) : List KillData :=
  killmaps.foldl
    (fun kills k =>
      match parseone rt k with
      | .error _ => kills
      | .ok kd => kills ++ [kd])
    []

/-- Source `getanddecode`; `get` is `http.Get`. -/
def getanddecode (rt : GoRuntime) (get : String → HttpResult) (url : String) :
    Except FetchError (List KillData) :=
  match get url with
  | .error => .error .transport
  | .response statusCode body =>
    if statusCode ≠ 200 then .error (.non200 statusCode body)
    else
      match rt.jsonDecode body with
      | none => .error .decode
      | some killmaps => .ok (buildKills rt killmaps)

/-! ## The kill cache -/

/-- Source `KillCache`: the map from kill id to the time it was first seen. -/
structure KillCache where
  cache : AList (fun _ : String => Time)

/-- Source `NewKillCache`. -/
def NewKillCache : KillCache := ⟨∅⟩

/-- Source `KillCache.Check`: the returned flag and the cache afterwards. -/
def KillCache.Check (kc : KillCache) (key : String) (ts : Time) : Bool × KillCache :=
  match kc.cache.lookup key with
  | some _ => (true, kc)
  | none => (false, ⟨kc.cache.insert key ts⟩)

/-- Source `KillCache.Evict`, first loop: the keys whose time is before
`before`, in the order the map is ranged over. -/
def KillCache.evictKeys (kc : KillCache) (before : Time) : List String :=
  kc.cache.entries.foldl (fun del e => if Time.Before e.2 before then del ++ [e.1] else del) []

/-- Source `KillCache.Evict`: collect the keys to drop, then delete each. -/
def KillCache.Evict (kc : KillCache) (before : Time) : KillCache :=
  ⟨(kc.evictKeys before).foldl (fun c k => c.erase k) kc.cache⟩

/-! ## The ignore list -/

/-- Go `map[string]bool` as built by `readignored`. -/
abbrev IgnoredSet := AList (fun _ : String => Bool)

/-- Go `unicode.IsSpace`. -/
def isSpace (c : Char) : Bool :=
  let n := c.toNat
  n == 9 || n == 10 || n == 11 || n == 12 || n == 13 || n == 32 || n == 0x85 || n == 0xA0 ||
  n == 0x1680 || (0x2000 ≤ n && n ≤ 0x200A) || n == 0x2028 || n == 0x2029 || n == 0x202F ||
  n == 0x205F || n == 0x3000

/-- Go `strings.TrimSpace`. -/
def TrimSpace (s : String) : String :=
  ⟨((s.data.dropWhile isSpace).reverse.dropWhile isSpace).reverse⟩

/-- Source `readignored`. `file` is what `os.Open("ignored.txt")` and the
scanner give: `none` when the file cannot be opened, otherwise the texts that
successive `scan.Text()` calls return. -/
def readignored (path : String) (file : Option (List String)) : IgnoredSet :=
  if path = "" then ∅
  else
    match file with
    | none => ∅
    | some lines =>
      lines.foldl
        (fun m line =>
          let t := TrimSpace line
          if t ≠ "" then m.insert t true else m)
        ∅

/-! ## The filter of a polling cycle -/

/-- Source `main`, lines 75 to 82: the kill is in an ignored system and worth
less than a billion ISK. -/
def suppressed (ignored : IgnoredSet) (k : KillData) : Bool :=
  match ignored.lookup k.SystemID with
  | some _ => k.Value.lt (.finite 1000000000)
  | none => false

/-- Source `main`, lines 69 to 89: the body of the filter loop, on the cache
and the list retained so far. -/
def filterStep (ignored : IgnoredSet) (now ignorebefore : Time)
    (st : KillCache × List KillData) (k : KillData) : KillCache × List KillData :=
  if ignorebefore.After k.KillTime then st
  else if suppressed ignored k then st
  else
    match st.1.Check k.KillID now with
    | (true, kc) => (kc, st.2)
    | (false, kc) => (kc, st.2 ++ [k])

/-- Source `main`, lines 67 to 89: the filter of one cycle at time `now`,
giving the cache afterwards and `filtered`. -/
def filterKills (ignored : IgnoredSet) (now : Time) (kc : KillCache) (kills : List KillData) :
    KillCache × List KillData :=
  kills.foldl (filterStep ignored now (now.Add (-Hour * 2))) (kc, [])

/-! ## Emission -/

/-- Source `ZkbUrl`. -/
def ZkbUrl : String := "https://zkillboard.com/"

/-- Source `Config`. -/
structure Config where
  ZKillboardUrl : String
  Channel : String
  SlackbotUrl : String
  sburl : String

/-- What `output` does to the outside world. -/
inductive Event where
  | sleep (d : Duration)
  | post (url contentType body : String)
  deriving DecidableEq

/-- The errors of `output`; `indexOutOfRange` is the run-time panic of an
index expression. -/
inductive OutputError where
  | transport
  | status (statusCode : Nat) (body : String)
  | indexOutOfRange
  deriving DecidableEq

/-- Source `output`, the loop from index `i` down to 0, entered with
`remaining = i + 1`; `posted` counts the posts made so far in this call and
`sink posted` is the outcome of the next `http.Post`. Gives the events in
order and the returned error. -/
def outputLoop (conf : Config) (sink : Nat → HttpResult) (kills : List KillData) :
    Nat → Nat → List Event × Option OutputError
  | 0, _ => ([], none)
  | i + 1, posted =>
    let pause : List Event := if i ≠ 0 then [Event.sleep (500 * Millisecond)] else []
    match kills[i]? with
    | none => (pause, some .indexOutOfRange)
    | some k =>
      let kurl := ZkbUrl ++ ("kill/" ++ k.KillID ++ "/")
      let events := pause ++ [Event.post conf.sburl "text/plain" kurl]
      match sink posted with
      | .error => (events, some .transport)
      | .response statusCode b =>
        if statusCode ≠ 200 then (events, some (.status statusCode b))
        else
          let rest := outputLoop conf sink kills i (posted + 1)
          (events ++ rest.1, rest.2)

/-- Source `output`. -/
def output (conf : Config) (sink : Nat → HttpResult) (kills : List KillData) :
    List Event × Option OutputError :=
  outputLoop conf sink kills kills.length 0

/-- The bodies of the posts of a trace, in order. -/
def postedBodies (events : List Event) : List String :=
  events.filterMap (fun e => match e with | .post _ _ body => some body | .sleep _ => none)

/-- The text `output` posts for a kill. -/
def killUrl (k : KillData) : String := ZkbUrl ++ ("kill/" ++ k.KillID ++ "/")


/-! ## The polling loop -/

/-- What `main` has at hand when it enters its loop. -/
structure Setup where
  /-- The runtime and library functions. -/
  rt : GoRuntime
  /-- The validated configuration `conf`. -/
  conf : Config
  /-- The flag `*Testing`. -/
  testing : Bool
  /-- The result of `readignored(*IgnorePath)`. -/
  ignored : IgnoredSet
  /-- Go `t.Format(ZkbTsFormat)`. -/
  formatTs : Time → String

/-- The variables of `main` that live from one iteration to the next. -/
structure LoopState where
  firstrun : Bool
  kc : KillCache

/-- Source `main`, lines 50 and 51: the state on entering the loop. -/
def initialState : LoopState := { firstrun := true, kc := NewKillCache }

/-- What the outside world gives one iteration: the value of
`time.Now().UTC()`, the answer of `http.Get`, and the answers of the successive
`http.Post` calls. -/
structure CycleInput where
  now : Time
  get : String → HttpResult
  sink : Nat → HttpResult

/-- Source `main`, lines 91 to 100: what an iteration emits. `printed` is
`printoutput(filtered)`, `posted` is `output(conf, filtered)` with its events
and its error. -/
inductive Emission where
  | nothing
  | printed (kills : List KillData)
  | posted (events : List Event) (err : Option OutputError)

/-- Source `main`, lines 59 and 60: the URL fetched at time `now`. -/
def fetchUrl (s : Setup) (now : Time) : String :=
  s.conf.ZKillboardUrl ++ ("startTime/" ++ s.formatTs (now.Add (-Hour)) ++ "/")

/-- Source `main`, lines 62 to 65: the kills of the iteration; on an error
`getanddecode` returns nil, the error is logged and the loop goes on. -/
def fetchKills (s : Setup) (inp : CycleInput) : List KillData :=
  match getanddecode s.rt inp.get (fetchUrl s inp.now) with
  | .error _ => []
  | .ok kills => kills

/-- One iteration of the loop of `main`, as seen from outside. -/
structure CycleResult where
  /-- The sleep at the top of the iteration, if any. -/
  pause : List Event
  /-- The kills fetched. -/
  kills : List KillData
  /-- The list `filtered`. -/
  filtered : List KillData
  /-- What was printed or posted. -/
  emission : Emission
  /-- The state at the end of the iteration. -/
  state : LoopState

/-- Source `main`, lines 54 to 102: one iteration of the loop. -/
def cycle (s : Setup) (st : LoopState) (inp : CycleInput) : CycleResult :=
  let pause : List Event := if !st.firstrun then [Event.sleep (5 * Minute)] else []
  let now := inp.now
  let kills := fetchKills s inp
  let flt := filterKills s.ignored now st.kc kills
  let emission : Emission :=
    if !st.firstrun && decide (flt.2.length > 0) then
      if s.testing then Emission.printed flt.2
      else Emission.posted (output s.conf inp.sink flt.2).1 (output s.conf inp.sink flt.2).2
    else Emission.nothing
  { pause := pause, kills := kills, filtered := flt.2, emission := emission,
    state := { firstrun := false, kc := flt.1.Evict (now.Add (-2 * Hour)) } }

/-- Source `main`, the loop: the iterations run on a finite sequence of
inputs, from the state `st`. -/
def runCycles (s : Setup) : LoopState → List CycleInput → List CycleResult
  | _, [] => []
  | st, inp :: rest => cycle s st inp :: runCycles s (cycle s st inp).state rest

/-- The state of the loop after the iterations on `inputs`, from `st`. -/
def finalState (s : Setup) (st : LoopState) (inputs : List CycleInput) : LoopState :=
  inputs.foldl (fun st inp => (cycle s st inp).state) st

/-- The bodies posted in one iteration, in order. -/
def cyclePosts (r : CycleResult) : List String :=
  match r.emission with
  | .posted events _ => postedBodies events
  | _ => []

/-- The bodies posted over a run, in order. -/
def runPosts (rs : List CycleResult) : List String :=
  (rs.map cyclePosts).flatten

/-! ## Assumptions on a run -/

/-- The cycle times of a run never go back. -/
def TimesNondecreasing (inputs : List CycleInput) : Prop :=
  inputs.Pairwise (fun a b => a.now ≤ b.now)

instance (inputs : List CycleInput) : Decidable (TimesNondecreasing inputs) := by
  unfold TimesNondecreasing; infer_instance

/-- Every record fetched in the run with a given id carries the same kill
time. -/
def SameKillTime (s : Setup) (inputs : List CycleInput) : Prop :=
  ∀ c ∈ inputs, ∀ c2 ∈ inputs, ∀ r ∈ fetchKills s c, ∀ r2 ∈ fetchKills s c2,
    r.KillID = r2.KillID → r.KillTime = r2.KillTime

instance (s : Setup) (inputs : List CycleInput) : Decidable (SameKillTime s inputs) := by
  unfold SameKillTime; infer_instance

/-- The kill time of a fetched record is not later than the time of the first
cycle of the run that fetches a record with its id. -/
def FirstFetchInPast (s : Setup) (inputs : List CycleInput) : Prop :=
  ∀ pre c post, inputs = pre ++ c :: post →
    ∀ r ∈ fetchKills s c,
      (∀ c2 ∈ pre, ∀ r2 ∈ fetchKills s c2, r2.KillID ≠ r.KillID) → r.KillTime ≤ c.now

/-- Every fetched record has a kill time not later than the time of the cycle
that fetches it. -/
def FetchedInPast (s : Setup) (inputs : List CycleInput) : Prop :=
  ∀ c ∈ inputs, ∀ r ∈ fetchKills s c, r.KillTime ≤ c.now

instance (s : Setup) (inputs : List CycleInput) : Decidable (FetchedInPast s inputs) := by
  unfold FetchedInPast; infer_instance

/-- The id cannot be retained in a cycle at time `now` when no fetched record
with this id is dated after `bound`: it is in the cache with a time of at least
`bound`, or `bound` is older than `now` minus two hours. -/
def Blocked (kc : KillCache) (id : String) (bound now : Time) : Prop :=
  (∃ t, kc.cache.lookup id = some t ∧ bound ≤ t) ∨ bound < now.Add (-Hour * 2)

/-! ## Example inputs -/

/-- A cache holding kill 100, first seen at time 5. -/
def exampleCache : KillCache := ⟨(∅ : AList (fun _ : String => Time)).insert "100" 5⟩

/-- A cache holding kill 100 since time 5 and kill 200 since time 7. -/
def exampleTwoCache : KillCache :=
  ⟨((∅ : AList (fun _ : String => Time)).insert "100" 5).insert "200" 7⟩

/-- A runtime for the examples: `parseFloat` reads plain decimal digits only,
the JSON decoder always fails, and an out-of-range `int(f)` gives the least
`int`. -/
def exampleRuntime : GoRuntime where
  parseFloat := fun s =>
    if !s.data.isEmpty && s.data.all Char.isDigit then
      some (Float64.finite (s.data.foldl (fun n c => n * 10 + digitVal c) 0 : Nat))
    else none
  jsonDecode := fun _ => none
  intOfFloatOutOfRange := fun _ => -(2 : Int) ^ 63

/-- The cycle time 2024-01-01 03:00:00 UTC. -/
def exampleNow : Time := 1704078000000000000

/-- An element of the feed: kill 41 at 2024-01-01 00:00:00. -/
def exampleOldElement : JObject :=
  [("killID", .str "41"), ("killTime", .str "2024-01-01 00:00:00")]

/-- An element of the feed: kill 42 at 2024-01-01 02:30:00. -/
def exampleRecentElement : JObject :=
  [("killID", .str "42"), ("killTime", .str "2024-01-01 02:30:00")]

/-- The record of kill 41, three hours before `exampleNow`. -/
def exampleOldKill : KillData :=
  { KillID := "41", KillTime := 1704067200000000000, SystemID := "", Value := .finite 0 }

/-- The record of kill 42, half an hour before `exampleNow`. -/
def exampleRecentKill : KillData :=
  { KillID := "42", KillTime := 1704076200000000000, SystemID := "", Value := .finite 0 }

/-- An ignore list read from a file with the one line ` 30000142 `. -/
def exampleIgnored : IgnoredSet := readignored "ignored.txt" (some [" 30000142 "])

/-- A kill worth five million ISK in the ignored system 30000142. -/
def exampleCheapKill : KillData :=
  { KillID := "43", KillTime := 1704076200000000000, SystemID := "30000142",
    Value := .finite 5000000 }

/-- An element whose `solarSystemID` is null. -/
def exampleNoSystemElement : JObject :=
  [("killID", .str "44"), ("killTime", .str "2024-01-01 02:30:00"), ("solarSystemID", .null)]

/-- The record `parseone` builds from `exampleNoSystemElement`. -/
def exampleNoSystemKill : KillData :=
  { KillID := "44", KillTime := 1704076200000000000, SystemID := "", Value := .finite 0 }

/-- An element without `killID`. -/
def exampleNoIdElement : JObject :=
  [("killTime", .str "2024-01-01 02:30:00"), ("solarSystemID", .str "30000142")]

/-- A runtime whose JSON decoder reads the body `[...]` as the batch of
`exampleNoIdElement` and `exampleRecentElement`. -/
def exampleDecodingRuntime : GoRuntime where
  parseFloat := fun _ => none
  jsonDecode := fun body =>
    if body = "[...]" then some [exampleNoIdElement, exampleRecentElement] else none
  intOfFloatOutOfRange := fun _ => -(2 : Int) ^ 63

/-- The element of kill 42 with a list for `solarSystemID` and a string for
`zkb`. -/
def exampleCorruptedElement : JObject :=
  [("killID", .str "42"), ("killTime", .str "2024-01-01 02:30:00"),
   ("solarSystemID", .list []), ("zkb", .str "?")]

/-- An element whose `totalValue` is the float 2,500,000. -/
def exampleFloatValueElement : JObject :=
  [("killID", .str "46"), ("killTime", .str "2024-01-01 02:30:00"),
   ("zkb", .map [("totalValue", .float (.finite 2500000))])]

/-- The record `parseone` builds from `exampleFloatValueElement`. -/
def exampleFloatValueKill : KillData :=
  { KillID := "46", KillTime := 1704076200000000000, SystemID := "",
    Value := .finite 2500000 }

/-- An element whose `totalValue` is the string `1200`. -/
def exampleStringValueElement : JObject :=
  [("killID", .str "47"), ("killTime", .str "2024-01-01 02:30:00"),
   ("zkb", .map [("totalValue", .str "1200")])]

/-- The record `parseone` builds from `exampleStringValueElement`. -/
def exampleStringValueKill : KillData :=
  { KillID := "47", KillTime := 1704076200000000000, SystemID := "",
    Value := .finite (1200 : Nat) }

/-- An element whose `totalValue` is the string `lots`. -/
def exampleBadValueElement : JObject :=
  [("killID", .str "48"), ("killTime", .str "2024-01-01 02:30:00"),
   ("zkb", .map [("totalValue", .str "lots")])]

/-- The record `parseone` builds from `exampleBadValueElement`. -/
def exampleBadValueKill : KillData :=
  { KillID := "48", KillTime := 1704076200000000000, SystemID := "", Value := .finite 0 }

/-- A configuration whose Slackbot URL is `https://hooks.example/post`. -/
def exampleConfig : Config :=
  { ZKillboardUrl := "https://zkillboard.com/api/", Channel := "#kills",
    SlackbotUrl := "https://hooks.example/post",
    sburl := "https://hooks.example/post?channel=%23kills" }

/-- Three kills in fetch order, newest first: a at time 3, b at 2, c at 1. -/
def exampleThreeKills : List KillData :=
  [{ KillID := "a", KillTime := 3, SystemID := "", Value := .finite 0 },
   { KillID := "b", KillTime := 2, SystemID := "", Value := .finite 0 },
   { KillID := "c", KillTime := 1, SystemID := "", Value := .finite 0 }]

/-- Two kills in fetch order, newest first: a at time 2, b at time 1. -/
def exampleTwoKills : List KillData :=
  [{ KillID := "a", KillTime := 2, SystemID := "", Value := .finite 0 },
   { KillID := "b", KillTime := 1, SystemID := "", Value := .finite 0 }]

/-- A sink that answers 200 to every post. -/
def exampleOkSink : Nat → HttpResult := fun _ => .response 200 "ok"

/-- A sink that answers 500 to the second post and 200 to the others. -/
def exampleFailingSink : Nat → HttpResult :=
  fun n => if n = 1 then .response 500 "no" else .response 200 "ok"

/-- A record of kill 100, half an hour before `exampleNow`. -/
def exampleSeenKill : KillData :=
  { KillID := "100", KillTime := 1704076200000000000, SystemID := "", Value := .finite 0 }

/-- An element of the feed: kill 100 at 2024-01-01 02:30:00. -/
def exampleSeenElement : JObject :=
  [("killID", .str "100"), ("killTime", .str "2024-01-01 02:30:00")]

/-- An element of the feed: kill 99, dated 2024-01-02 00:00:00. -/
def exampleFutureElement : JObject :=
  [("killID", .str "99"), ("killTime", .str "2024-01-02 00:00:00")]

/-- A runtime whose JSON decoder knows four bodies: `empty` (no element),
`k42` (kill 42), `dup` (kills 100 and 42) and `future` (kill 99); every other
body fails to decode. -/
def exampleFeedRuntime : GoRuntime where
  parseFloat := fun _ => none
  jsonDecode := fun body =>
    if body = "empty" then some []
    else if body = "k42" then some [exampleRecentElement]
    else if body = "dup" then some [exampleSeenElement, exampleRecentElement]
    else if body = "future" then some [exampleFutureElement]
    else none
  intOfFloatOutOfRange := fun _ => -(2 : Int) ^ 63

/-- A setup for the examples: posting mode, the ignore list of system 30000142. -/
def exampleSetup : Setup :=
  { rt := exampleFeedRuntime, conf := exampleConfig, testing := false,
    ignored := exampleIgnored, formatTs := fun _ => "202401010200" }

/-- The same setup in test mode. -/
def exampleTestSetup : Setup := { exampleSetup with testing := true }

/-- The input of a cycle at time `now` whose fetch is answered 200 with `body`
and whose posts are all answered 200. -/
def exampleInput (now : Time) (body : String) : CycleInput :=
  { now := now, get := fun _ => .response 200 body, sink := exampleOkSink }

/-- The input of a cycle at time `now` whose fetch is answered 503. -/
def exampleDownInput (now : Time) : CycleInput :=
  { now := now, get := fun _ => .response 503 "down", sink := exampleOkSink }

/-- A state after the first run, with the cache holding kill 100 since time 5. -/
def exampleLaterState : LoopState := { firstrun := false, kc := exampleCache }

/-- An element whose `killTime` is the integer 20240101023000. -/
def exampleNumericTimeElement : JObject :=
  [("killID", .str "50"), ("killTime", .int 20240101023000)]

/-- A run of `main` in which the feed dates kill 99 a day ahead: an empty first
cycle at 03:00, then cycles at 03:05, 06:00 and 06:05 that all fetch kill 99. -/
def exampleFutureRun : List CycleInput :=
  [exampleInput 1704078000000000000 "empty",
   exampleInput 1704078300000000000 "future",
   exampleInput 1704088800000000000 "future",
   exampleInput 1704089100000000000 "future"]

/-- A run of `main` on a natural feed: kill 42 fetched at 03:00, then kills
100 and 42 fetched at 03:05, 08:00 and 08:05. -/
def exampleNaturalRun : List CycleInput :=
  [exampleInput 1704078000000000000 "k42",
   exampleInput 1704078300000000000 "dup",
   exampleInput 1704096000000000000 "dup",
   exampleInput 1704096300000000000 "dup"]

/-! ## Lemmas on the cache -/

theorem foldl_collect {α β : Type} (p : α → Bool) (f : α → β) (l : List α) (acc : List β) :
    l.foldl (fun del e => if p e then del ++ [f e] else del) acc
      = acc ++ (l.filter p).map f := by
  induction l generalizing acc with
  | nil => simp
  | cons e l ih =>
    simp only [List.foldl_cons, ih]
    by_cases h : p e <;> simp [h, List.filter_cons]

theorem evictKeys_eq (kc : KillCache) (before : Time) :
    kc.evictKeys before
      = (kc.cache.entries.filter (fun e => Time.Before e.2 before)).map (fun e => e.1) := by
  unfold KillCache.evictKeys
  rw [foldl_collect (fun e : (_ : String) × Time => Time.Before e.2 before) (fun e => e.1)]
  simp

theorem mem_evictKeys (kc : KillCache) (before : Time) (k : String) :
    k ∈ kc.evictKeys before ↔ ∃ t, kc.cache.lookup k = some t ∧ t < before := by
  rw [evictKeys_eq]
  simp only [List.mem_map, List.mem_filter, Time.Before, decide_eq_true_eq]
  constructor
  · rintro ⟨⟨a, t⟩, ⟨hmem, hlt⟩, rfl⟩
    exact ⟨t, AList.mem_lookup_iff.mpr hmem, hlt⟩
  · rintro ⟨t, hl, hlt⟩
    exact ⟨⟨k, t⟩, ⟨AList.mem_lookup_iff.mp hl, hlt⟩, rfl⟩

theorem lookup_foldl_erase (del : List String) (c : AList (fun _ : String => Time)) (k : String) :
    (del.foldl (fun c k => c.erase k) c).lookup k = if k ∈ del then none else c.lookup k := by
  induction del generalizing c with
  | nil => simp
  | cons d del ih =>
    simp only [List.foldl_cons, ih, List.mem_cons]
    by_cases hd : k = d
    · subst hd; simp
    · by_cases hm : k ∈ del
      · simp [hm]
      · simp [hm, hd, AList.lookup_erase_ne hd]

theorem lookup_Evict (kc : KillCache) (before : Time) (k : String) :
    (kc.Evict before).cache.lookup k
      = if k ∈ kc.evictKeys before then none else kc.cache.lookup k := by
  unfold KillCache.Evict
  exact lookup_foldl_erase _ _ _

/-! ## C1 and C2: the cache -/

/-- C1. `Check` on a key already in the cache returns true and leaves the cache
as it is; on a key not in the cache it returns false and the cache afterwards
is the old one plus the entry `id -> now`, every other entry unchanged; a
second `Check` of the same id, at any time, returns true and changes nothing,
so the time stored first stays. -/
theorem C1_check (kc : KillCache) (id : String) (now : Time) :
    (id ∈ kc.cache → kc.Check id now = (true, kc)) ∧
    (id ∉ kc.cache →
      (kc.Check id now).1 = false ∧
      (kc.Check id now).2.cache = kc.cache.insert id now ∧
      (kc.Check id now).2.cache.lookup id = some now ∧
      (∀ k, k ≠ id → (kc.Check id now).2.cache.lookup k = kc.cache.lookup k) ∧
      (∀ k, k ∈ (kc.Check id now).2.cache ↔ k = id ∨ k ∈ kc.cache)) ∧
    (∀ later : Time,
      ((kc.Check id now).2.Check id later).1 = true ∧
      ((kc.Check id now).2.Check id later).2 = (kc.Check id now).2 ∧
      ∃ first, (kc.Check id now).2.cache.lookup id = some first ∧
        (((kc.Check id now).2.Check id later).2.cache.lookup id = some first) ∧
        (id ∉ kc.cache → first = now)) := by
  have key : ∀ (c : KillCache) (t : Time), id ∈ c.cache → c.Check id t = (true, c) := by
    intro c t h
    obtain ⟨v, hv⟩ := Option.isSome_iff_exists.mp (AList.lookup_isSome.mpr h)
    simp [KillCache.Check, hv]
  have fresh : id ∉ kc.cache → kc.Check id now = (false, ⟨kc.cache.insert id now⟩) := by
    intro h
    simp [KillCache.Check, AList.lookup_eq_none.mpr h]
  have hmem : id ∈ (kc.Check id now).2.cache := by
    by_cases h : id ∈ kc.cache
    · rw [key kc now h]; exact h
    · rw [fresh h]; simp
  refine ⟨key kc now, ?_, ?_⟩
  · intro h
    rw [fresh h]
    refine ⟨rfl, rfl, AList.lookup_insert _, ?_, ?_⟩
    · intro k hk
      exact AList.lookup_insert_ne hk
    · intro k
      simp
  · intro later
    rw [key _ later hmem]
    obtain ⟨v, hv⟩ := Option.isSome_iff_exists.mp (AList.lookup_isSome.mpr hmem)
    refine ⟨rfl, rfl, v, hv, hv, ?_⟩
    intro h
    rw [fresh h] at hv
    simpa using hv.symm

/-- C1 at a cache holding kill 100 since time 5: checking 100 at time 7 reports
a hit and changes nothing; checking 200 at time 7 reports a miss and stores
`200 -> 7`; a later check of 200 at time 9 reports a hit and keeps 7. -/
theorem C1_check_witness :
    exampleCache.Check "100" 7 = (true, exampleCache) ∧
    ((exampleCache.Check "200" 7).1 = false ∧
      (exampleCache.Check "200" 7).2.cache.lookup "200" = some 7 ∧
      (exampleCache.Check "200" 7).2.cache.lookup "100" = some 5) ∧
    (((exampleCache.Check "200" 7).2.Check "200" 9).1 = true ∧
      ((exampleCache.Check "200" 7).2.Check "200" 9).2.cache.lookup "200" = some 7) :=
  ⟨(C1_check exampleCache "100" 7).1 (by decide),
   ⟨((C1_check exampleCache "200" 7).2.1 (by decide)).1,
    ((C1_check exampleCache "200" 7).2.1 (by decide)).2.2.1,
    by decide⟩,
   ⟨((C1_check exampleCache "200" 7).2.2 9).1, by decide⟩⟩

/-- C2. `Evict(before)` removes exactly the entries whose time is strictly
earlier than `before`: `k -> t` is in the cache afterwards if and only if it
was there beforehand and `before <= t`, so an entry stamped `before` stays and
a survivor keeps its time. -/
theorem C2_evict (kc : KillCache) (before : Time) (k : String) (t : Time) :
    (kc.Evict before).cache.lookup k = some t ↔ kc.cache.lookup k = some t ∧ before ≤ t := by
  rw [lookup_Evict]
  by_cases h : k ∈ kc.evictKeys before
  · obtain ⟨u, hu, hlt⟩ := (mem_evictKeys kc before k).mp h
    simp only [h, if_true]
    constructor
    · intro h0; cases h0
    · rintro ⟨h1, h2⟩
      rw [hu] at h1
      cases h1
      exact absurd hlt (not_lt.mpr h2)
  · simp only [h, if_false]
    constructor
    · intro h1
      refine ⟨h1, ?_⟩
      by_contra hlt
      exact h ((mem_evictKeys kc before k).mpr ⟨t, h1, not_le.mp hlt⟩)
    · exact fun h1 => h1.1


/-- C2 at a cache holding `100 -> 5` and `200 -> 7`: `Evict(7)` drops kill 100
and keeps kill 200, stamped exactly 7, with its time. -/
theorem C2_evict_witness :
    (exampleTwoCache.Evict 7).cache.lookup "200" = some 7 ∧
    (exampleTwoCache.Evict 7).cache.lookup "100" ≠ some 5 ∧
    (exampleTwoCache.Evict 7).cache.lookup "100" = none :=
  ⟨(C2_evict exampleTwoCache 7 "200" 7).mpr ⟨by decide, by decide⟩,
   fun h => absurd ((C2_evict exampleTwoCache 7 "100" 5).mp h).2 (by decide),
   by decide⟩

/-! ## Lemmas on the filter -/

theorem Check_fst (kc : KillCache) (key : String) (ts : Time) :
    (kc.Check key ts).1 = (kc.cache.lookup key).isSome := by
  unfold KillCache.Check
  cases kc.cache.lookup key <;> rfl

theorem filterStep_mem (ignored : IgnoredSet) (now ib : Time) (st : KillCache × List KillData)
    (k x : KillData) (hx : x ∈ (filterStep ignored now ib st k).2) :
    x ∈ st.2 ∨ (x = k ∧ ib.After k.KillTime = false ∧ suppressed ignored k = false ∧
      st.1.cache.lookup k.KillID = none) := by
  unfold filterStep at hx
  by_cases h1 : ib.After k.KillTime = true
  · simp only [h1, if_true] at hx; exact Or.inl hx
  · by_cases h2 : suppressed ignored k = true
    · simp only [h1, h2, if_true, if_false] at hx; exact Or.inl hx
    · simp only [h1, h2, if_false] at hx
      have hc := Check_fst st.1 k.KillID now
      rcases hck : st.1.Check k.KillID now with ⟨b, kc2⟩
      rw [hck] at hx hc
      cases b
      · have hx : x ∈ st.2 ++ [k] := hx
        rw [List.mem_append, List.mem_singleton] at hx
        rcases hx with hx | hx
        · exact Or.inl hx
        · refine Or.inr ⟨hx, by simpa using h1, by simpa using h2, ?_⟩
          have : (st.1.cache.lookup k.KillID).isSome = false := hc.symm
          simpa using this
      · exact Or.inl hx

theorem foldl_filterStep_mem (ignored : IgnoredSet) (now ib : Time) (kills : List KillData)
    (st : KillCache × List KillData) (x : KillData)
    (hx : x ∈ (kills.foldl (filterStep ignored now ib) st).2) :
    x ∈ st.2 ∨ (x ∈ kills ∧ ib.After x.KillTime = false ∧ suppressed ignored x = false) := by
  induction kills generalizing st with
  | nil => exact Or.inl hx
  | cons k kills ih =>
    rw [List.foldl_cons] at hx
    rcases ih _ hx with h | ⟨h1, h2, h3⟩
    · rcases filterStep_mem ignored now ib st k x h with h | ⟨rfl, h2, h3, _⟩
      · exact Or.inl h
      · exact Or.inr ⟨List.mem_cons_self _ _, h2, h3⟩
    · exact Or.inr ⟨List.mem_cons_of_mem _ h1, h2, h3⟩

theorem filterKills_mem (ignored : IgnoredSet) (now : Time) (kc : KillCache)
    (kills : List KillData) (x : KillData) (hx : x ∈ (filterKills ignored now kc kills).2) :
    x ∈ kills ∧ (now.Add (-Hour * 2)).After x.KillTime = false ∧ suppressed ignored x = false := by
  rcases foldl_filterStep_mem ignored now _ kills (kc, []) x hx with h | h
  · cases h
  · exact h

theorem filterStep_keeps (ignored : IgnoredSet) (now ib : Time) (st : KillCache × List KillData)
    (k x : KillData) (hx : x ∈ st.2) : x ∈ (filterStep ignored now ib st k).2 := by
  unfold filterStep
  split
  · exact hx
  · split
    · exact hx
    · split
      · exact hx
      · exact List.mem_append_left _ hx

theorem foldl_filterStep_keeps (ignored : IgnoredSet) (now ib : Time) (kills : List KillData)
    (st : KillCache × List KillData) (x : KillData) (hx : x ∈ st.2) :
    x ∈ (kills.foldl (filterStep ignored now ib) st).2 := by
  induction kills generalizing st with
  | nil => exact hx
  | cons k kills ih =>
    rw [List.foldl_cons]
    exact ih _ (filterStep_keeps ignored now ib st k x hx)

theorem filterStep_retains (ignored : IgnoredSet) (now ib : Time) (st : KillCache × List KillData)
    (k : KillData) (h1 : ib.After k.KillTime = false) (h2 : suppressed ignored k = false)
    (h3 : k.KillID ∉ st.1.cache) : k ∈ (filterStep ignored now ib st k).2 := by
  unfold filterStep
  have hc : st.1.Check k.KillID now = (false, ⟨st.1.cache.insert k.KillID now⟩) := by
    simp [KillCache.Check, AList.lookup_eq_none.mpr h3]
  simp [h1, h2, hc]

theorem Float64.lt_eq_false_of_ge (a b : Float64) (h : a.ge b = true) : a.lt b = false := by
  cases a <;> cases b <;> simp_all [Float64.lt, Float64.ge]

theorem readignored_nonempty (path : String) (file : Option (List String)) (k : String)
    (hk : k ∈ readignored path file) : k ≠ "" := by
  unfold readignored at hk
  by_cases hp : path = ""
  · simp [hp] at hk
  · simp only [hp, if_false] at hk
    cases file with
    | none => simp at hk
    | some lines =>
      simp only at hk
      have gen : ∀ (ls : List String) (m : IgnoredSet), (∀ x ∈ m, x ≠ "") →
          ∀ x ∈ ls.foldl (fun m line => if TrimSpace line ≠ "" then m.insert (TrimSpace line) true else m) m,
            x ≠ "" := by
        intro ls
        induction ls with
        | nil => intro m hm x hx; exact hm x hx
        | cons l ls ih =>
          intro m hm x hx
          rw [List.foldl_cons] at hx
          refine ih _ ?_ x hx
          intro y hy
          by_cases ht : TrimSpace l ≠ ""
          · rw [if_pos ht, AList.mem_insert] at hy
            rcases hy with rfl | hy
            · exact ht
            · exact hm y hy
          · rw [if_neg ht] at hy
            exact hm y hy
      exact gen lines ∅ (by simp) k hk

/-! ## C3, C4, C5: the filter of a cycle -/

/-- C3. In the filter of a cycle at time `now`, whatever the cache, the ignore
list and the fetched records, a record whose kill time is strictly older than
`now` minus two hours is not in the retained list, whatever its other
fields. -/
theorem C3_recency (ignored : IgnoredSet) (now : Time) (kc : KillCache)
    (kills : List KillData) (k : KillData) (hold : k.KillTime < now.Add (-Hour * 2)) :
    k ∉ (filterKills ignored now kc kills).2 := by
  intro hk
  have h := (filterKills_mem ignored now kc kills k hk).2.1
  simp only [Time.After, decide_eq_false_iff_not] at h
  exact h hold

/-- C3 on the example of the specification: at 2024-01-01 03:00:00 the feed
holds kill 41 of 00:00:00 and kill 42 of 02:30:00; kill 41 is not retained and
the retained list holds kill 42 alone. -/
theorem C3_recency_witness :
    parseKillTime "2024-01-01 03:00:00" = some exampleNow ∧
    buildKills exampleRuntime [exampleOldElement, exampleRecentElement]
      = [exampleOldKill, exampleRecentKill] ∧
    exampleOldKill ∉
      (filterKills ∅ exampleNow NewKillCache [exampleOldKill, exampleRecentKill]).2 ∧
    (filterKills ∅ exampleNow NewKillCache [exampleOldKill, exampleRecentKill]).2.map
      KillData.KillID = ["42"] :=
  ⟨by decide, by rfl,
   C3_recency ∅ exampleNow NewKillCache [exampleOldKill, exampleRecentKill] exampleOldKill
     (by decide),
   by decide⟩

/-- C4. A record whose system is in the ignore list and whose value is below
1,000,000,000 is not in the retained list. The same record with a value of at
least 1,000,000,000 is not excluded by the suppression test, and it is retained
when it is not older than `now` minus two hours and its id is not in the cache
when its turn comes (the cache as left by the records fetched before it). -/
theorem C4_suppression (ignored : IgnoredSet) (now : Time) (kc : KillCache) (k : KillData) :
    (k.SystemID ∈ ignored → k.Value.lt (.finite 1000000000) = true →
      ∀ kills, k ∉ (filterKills ignored now kc kills).2) ∧
    (∀ v : Float64, v.ge (.finite 1000000000) = true →
      suppressed ignored { k with Value := v } = false ∧
      ∀ before after : List KillData,
        now.Add (-Hour * 2) ≤ k.KillTime →
        k.KillID ∉ (filterKills ignored now kc before).1.cache →
        { k with Value := v } ∈
          (filterKills ignored now kc (before ++ { k with Value := v } :: after)).2) := by
  constructor
  · intro hmem hlt kills hk
    have h := (filterKills_mem ignored now kc kills k hk).2.2
    obtain ⟨b, hb⟩ := Option.isSome_iff_exists.mp (AList.lookup_isSome.mpr hmem)
    simp [suppressed, hb, hlt] at h
  · intro v hv
    have hs : suppressed ignored { k with Value := v } = false := by
      unfold suppressed
      cases ignored.lookup k.SystemID with
      | none => rfl
      | some b => exact Float64.lt_eq_false_of_ge _ _ hv
    refine ⟨hs, ?_⟩
    intro before after hrec hid
    unfold filterKills
    rw [List.foldl_append, List.foldl_cons]
    apply foldl_filterStep_keeps
    apply filterStep_retains
    · simpa [Time.After] using hrec
    · exact hs
    · exact hid

/-- C4 at the ignored system 30000142: a kill of five million ISK there is not
retained, the same kill at two billion ISK is. -/
theorem C4_suppression_witness :
    exampleCheapKill ∉ (filterKills exampleIgnored exampleNow NewKillCache [exampleCheapKill]).2 ∧
    { exampleCheapKill with Value := .finite 2000000000 } ∈
      (filterKills exampleIgnored exampleNow NewKillCache
        ([] ++ { exampleCheapKill with Value := .finite 2000000000 } :: [])).2 :=
  ⟨(C4_suppression exampleIgnored exampleNow NewKillCache exampleCheapKill).1
     (by decide) (by decide) [exampleCheapKill],
   ((C4_suppression exampleIgnored exampleNow NewKillCache exampleCheapKill).2
     (.finite 2000000000) (by decide)).2 [] [] (by decide) (by decide)⟩

/-- C5. A record without a location is never suppressed: for the ignore list
`readignored` builds from any path and any file, and a record `parseone`
decodes from an element whose `solarSystemID` is absent or does not convert to
a string, the system of the record is the empty string, the empty string is
not in the ignore list, and the suppression test lets the record through
whatever its value. -/
theorem C5_no_location (rt : GoRuntime) (path : String) (file : Option (List String))
    (k : JObject) (kd : KillData) (hok : parseone rt k = .ok kd)
    (hloc : k.lookup "solarSystemID" = none ∨
      ∃ v, k.lookup "solarSystemID" = some v ∧ valtostring rt v = none) :
    kd.SystemID = "" ∧ kd.SystemID ∉ readignored path file ∧
    suppressed (readignored path file) kd = false ∧
    ∀ v : Float64, suppressed (readignored path file) { kd with Value := v } = false := by
  have hsys : kd.SystemID = "" := by
    have : kd.SystemID = parseSystem rt k := by
      unfold parseone at hok
      split at hok
      · cases hok
      · split at hok
        · cases hok
        · split at hok
          · cases hok
          · split at hok
            · cases hok
            · split at hok
              · cases hok
              · cases hok; rfl
    rw [this]
    unfold parseSystem
    rcases hloc with h | ⟨v, h1, h2⟩
    · simp [h]
    · simp [h1, h2]
  have hnot : ∀ s : String, s = "" → s ∉ readignored path file := by
    intro s hs hmem
    exact readignored_nonempty path file s hmem hs
  have hsup : ∀ r : KillData, r.SystemID = "" → suppressed (readignored path file) r = false := by
    intro r hr
    unfold suppressed
    rw [AList.lookup_eq_none.mpr (hnot _ hr)]
  exact ⟨hsys, hnot _ hsys, hsup _ hsys, fun v => hsup _ hsys⟩

/-- C5 at an element whose `solarSystemID` is null, against the ignore list
holding 30000142: the record has no system and is not suppressed. -/
theorem C5_no_location_witness :
    parseone exampleRuntime exampleNoSystemElement = .ok exampleNoSystemKill ∧
    exampleNoSystemKill.SystemID = "" ∧
    suppressed (readignored "ignored.txt" (some [" 30000142 "])) exampleNoSystemKill = false :=
  ⟨by rfl,
   (C5_no_location exampleRuntime "ignored.txt" (some [" 30000142 "]) exampleNoSystemElement
     exampleNoSystemKill (by rfl) (Or.inr ⟨.null, by rfl, by rfl⟩)).1,
   (C5_no_location exampleRuntime "ignored.txt" (some [" 30000142 "]) exampleNoSystemElement
     exampleNoSystemKill (by rfl) (Or.inr ⟨.null, by rfl, by rfl⟩)).2.2.1⟩


/-! ## Lemmas on the decoder -/

theorem foldl_buildKills (rt : GoRuntime) (killmaps : List JObject) (acc : List KillData) :
    killmaps.foldl
        (fun kills k =>
          match parseone rt k with
          | .error _ => kills
          | .ok kd => kills ++ [kd])
        acc
      = acc ++ killmaps.filterMap (fun k => (parseone rt k).toOption) := by
  induction killmaps generalizing acc with
  | nil => simp
  | cons k ks ih =>
    rw [List.foldl_cons, ih]
    cases h : parseone rt k with
    | error e => simp [List.filterMap_cons, Except.toOption, h]
    | ok kd => simp [List.filterMap_cons, Except.toOption, h]

theorem parseone_ok_iff (rt : GoRuntime) (k : JObject) (kd : KillData) :
    parseone rt k = .ok kd ↔
      ∃ v vs ktv kts kt, k.lookup "killID" = some v ∧ valtostring rt v = some vs ∧
        k.lookup "killTime" = some ktv ∧ valtostring rt ktv = some kts ∧
        parseKillTime kts = some kt ∧
        kd = { KillID := vs, KillTime := kt, SystemID := parseSystem rt k,
               Value := parseValue rt k } := by
  constructor
  · intro h
    unfold parseone at h
    split at h
    · cases h
    · rename_i v h1
      split at h
      · cases h
      · rename_i vs h2
        split at h
        · cases h
        · rename_i ktv h3
          split at h
          · cases h
          · rename_i kts h4
            split at h
            · cases h
            · rename_i kt h5
              cases h
              exact ⟨v, vs, ktv, kts, kt, h1, h2, h3, h4, h5, rfl⟩
  · rintro ⟨v, vs, ktv, kts, kt, h1, h2, h3, h4, h5, rfl⟩
    simp [parseone, h1, h2, h3, h4, h5]

/-! ## C6, C7, C8: the decoder -/

/-- C6. The loop of `getanddecode` that builds the records returns, for every
decoded sequence of elements, the records of exactly the elements on which
`parseone` succeeds, in their order, each failing element skipped on its own;
and `getanddecode` returns that list without error when the fetch answers 200
and the body decodes. -/
theorem C6_batch (rt : GoRuntime) (killmaps : List JObject) :
    buildKills rt killmaps = killmaps.filterMap (fun k => (parseone rt k).toOption) ∧
    ∀ (get : String → HttpResult) (url body : String),
      get url = .response 200 body → rt.jsonDecode body = some killmaps →
      getanddecode rt get url
        = .ok (killmaps.filterMap (fun k => (parseone rt k).toOption)) := by
  have h : buildKills rt killmaps = killmaps.filterMap (fun k => (parseone rt k).toOption) := by
    unfold buildKills
    rw [foldl_buildKills]
    simp
  refine ⟨h, ?_⟩
  intro get url body hget hdec
  unfold getanddecode
  simp [hget, hdec, h]

/-- C6 on a batch of an element without `killID` and the well-formed element of
kill 42: one record, that of kill 42, and no error for the batch. -/
theorem C6_batch_witness :
    parseone exampleDecodingRuntime exampleNoIdElement = .error .noKillID ∧
    getanddecode exampleDecodingRuntime (fun _ => .response 200 "[...]") "startTime/202401010200/"
      = .ok [exampleRecentKill] :=
  ⟨by rfl,
   (C6_batch exampleDecodingRuntime [exampleNoIdElement, exampleRecentElement]).2
     (fun _ => .response 200 "[...]") "startTime/202401010200/" "[...]" (by rfl) (by rfl)⟩

/-- C7. `parseone` succeeds exactly when the element has a `killID` that
`valtostring` converts and a `killTime` that `valtostring` converts to a string
that parses as `YYYY-MM-DD HH:MM:SS`; the record then carries that id and that
time. Success does not depend on anything else in the element: two elements
with the same `killID` and `killTime` entries succeed or fail together,
whatever their `solarSystemID` and `zkb`. -/
theorem C7_parseone (rt : GoRuntime) (k : JObject) :
    ((∃ kd, parseone rt k = .ok kd) ↔
      ∃ v vs ktv kts kt, k.lookup "killID" = some v ∧ valtostring rt v = some vs ∧
        k.lookup "killTime" = some ktv ∧ valtostring rt ktv = some kts ∧
        parseKillTime kts = some kt) ∧
    (∀ kd v vs ktv kts kt, parseone rt k = .ok kd →
      k.lookup "killID" = some v → valtostring rt v = some vs →
      k.lookup "killTime" = some ktv → valtostring rt ktv = some kts →
      parseKillTime kts = some kt → kd.KillID = vs ∧ kd.KillTime = kt) ∧
    (∀ k2 : JObject, k2.lookup "killID" = k.lookup "killID" →
      k2.lookup "killTime" = k.lookup "killTime" →
      ((∃ kd, parseone rt k = .ok kd) ↔ ∃ kd2, parseone rt k2 = .ok kd2)) := by
  have succ : ∀ j : JObject, (∃ kd, parseone rt j = .ok kd) ↔
      ∃ v vs ktv kts kt, j.lookup "killID" = some v ∧ valtostring rt v = some vs ∧
        j.lookup "killTime" = some ktv ∧ valtostring rt ktv = some kts ∧
        parseKillTime kts = some kt := by
    intro j
    constructor
    · rintro ⟨kd, h⟩
      obtain ⟨v, vs, ktv, kts, kt, h1, h2, h3, h4, h5, _⟩ := (parseone_ok_iff rt j kd).mp h
      exact ⟨v, vs, ktv, kts, kt, h1, h2, h3, h4, h5⟩
    · rintro ⟨v, vs, ktv, kts, kt, h1, h2, h3, h4, h5⟩
      exact ⟨_, (parseone_ok_iff rt j _).mpr ⟨v, vs, ktv, kts, kt, h1, h2, h3, h4, h5, rfl⟩⟩
  refine ⟨succ k, ?_, ?_⟩
  · intro kd v vs ktv kts kt h h1 h2 h3 h4 h5
    obtain ⟨v2, vs2, ktv2, kts2, kt2, e1, e2, e3, e4, e5, e6⟩ := (parseone_ok_iff rt k kd).mp h
    rw [h1] at e1; cases e1
    rw [h2] at e2; cases e2
    rw [h3] at e3; cases e3
    rw [h4] at e4; cases e4
    rw [h5] at e5; cases e5
    rw [e6]
    exact ⟨rfl, rfl⟩
  · intro k2 hid htime
    rw [succ k, succ k2, hid, htime]

/-- C7 at the element of kill 42: it decodes to kill 42 at 02:30:00, and the
same element with a `solarSystemID` list and a `zkb` string still decodes. -/
theorem C7_parseone_witness :
    (∃ kd, parseone exampleRuntime exampleRecentElement = .ok kd) ∧
    (exampleRecentKill.KillID = "42" ∧ exampleRecentKill.KillTime = 1704076200000000000) ∧
    (∃ kd2, parseone exampleRuntime exampleCorruptedElement = .ok kd2) :=
  ⟨(C7_parseone exampleRuntime exampleRecentElement).1.mpr
     ⟨.str "42", "42", .str "2024-01-01 02:30:00", "2024-01-01 02:30:00",
      1704076200000000000, by rfl, by rfl, by rfl, by rfl, by rfl⟩,
   (C7_parseone exampleRuntime exampleRecentElement).2.1 exampleRecentKill
     (.str "42") "42" (.str "2024-01-01 02:30:00") "2024-01-01 02:30:00"
     1704076200000000000 (by rfl) (by rfl) (by rfl) (by rfl) (by rfl) (by rfl),
   ((C7_parseone exampleRuntime exampleRecentElement).2.2 exampleCorruptedElement
     (by rfl) (by rfl)).mp ⟨exampleRecentKill, by rfl⟩⟩


/-- C8. `valtostring` accepts exactly strings, integers and floats: a string
comes back unchanged, an integer as its decimal text, and a float whose
truncation fits `int` as the decimal text of its truncation toward zero (the
floor of a value that is not negative, the ceiling of a negative one); a
boolean, null, list or map is rejected, and an element with such a `killID`
fails `parseone`. -/
theorem C8_valtostring (rt : GoRuntime) (v : Val) :
    (∀ s, v = .str s → valtostring rt v = some s) ∧
    (∀ n, v = .int n → valtostring rt v = some (toString n)) ∧
    (∀ q, v = .float (.finite q) → inIntRange (truncToZero q) →
      valtostring rt v = some (toString (if 0 ≤ q then ⌊q⌋ else ⌈q⌉))) ∧
    ((∃ s, valtostring rt v = some s) ↔
      (∃ s, v = .str s) ∨ (∃ n, v = .int n) ∨ (∃ f, v = .float f)) ∧
    (((∃ b, v = .bool b) ∨ v = .null ∨ (∃ xs, v = .list xs) ∨ (∃ kvs, v = .map kvs)) →
      valtostring rt v = none ∧
      ∀ k : JObject, k.lookup "killID" = some v → parseone rt k = .error .idNotString) := by
  refine ⟨?_, ?_, ?_, ?_, ?_⟩
  · rintro s rfl; rfl
  · rintro n rfl; rfl
  · rintro q rfl hq
    simp only [valtostring, sprintfD, GoRuntime.floatToInt, hq, if_true]
    rfl
  · cases v <;> simp [valtostring]
  · intro h
    have hnone : valtostring rt v = none := by
      rcases h with ⟨b, rfl⟩ | rfl | ⟨xs, rfl⟩ | ⟨kvs, rfl⟩ <;> rfl
    refine ⟨hnone, ?_⟩
    intro k hk
    simp [parseone, hk, hnone]

theorem truncToZero_example_pos : truncToZero (429 / 10) = 42 := by
  have h : (0 : ℚ) ≤ 429 / 10 := by norm_num
  rw [truncToZero, if_pos h, Int.floor_eq_iff]
  constructor <;> norm_num

theorem truncToZero_example_exact :
    truncToZero (6037638250443571 / 140737488355328) = 42 := by
  have h : (0 : ℚ) ≤ 6037638250443571 / 140737488355328 := by norm_num
  rw [truncToZero, if_pos h, Int.floor_eq_iff]
  constructor <;> norm_num

theorem truncToZero_example_neg : truncToZero (-3 / 2) = -1 := by
  have h : ¬ (0 : ℚ) ≤ -3 / 2 := by norm_num
  rw [truncToZero, if_neg h, Int.ceil_eq_iff]
  constructor <;> norm_num

/-- C8 on examples: the string `abc` and the integer -7 convert to `abc` and
`-7`; 42.9 (the rational, and the nearest float64) converts to `42` and -1.5
to `-1`; a boolean `killID` fails the element. -/
theorem C8_valtostring_witness :
    valtostring exampleRuntime (.str "abc") = some "abc" ∧
    valtostring exampleRuntime (.int (-7)) = some "-7" ∧
    valtostring exampleRuntime (.float (.finite (429 / 10))) = some "42" ∧
    valtostring exampleRuntime (.float (.finite (6037638250443571 / 140737488355328)))
      = some "42" ∧
    valtostring exampleRuntime (.float (.finite (-3 / 2))) = some "-1" ∧
    parseone exampleRuntime [("killID", .bool true), ("killTime", .str "2024-01-01 02:30:00")]
      = .error .idNotString := by
  refine ⟨(C8_valtostring exampleRuntime _).1 "abc" rfl,
    (C8_valtostring exampleRuntime _).2.1 (-7) rfl, ?_, ?_, ?_,
    ((C8_valtostring exampleRuntime (.bool true)).2.2.2.2 (Or.inl ⟨true, rfl⟩)).2 _ (by rfl)⟩
  · have h := (C8_valtostring exampleRuntime _).2.2.1 (429 / 10) rfl
      (by rw [truncToZero_example_pos]; decide)
    rw [show (if (0 : ℚ) ≤ 429 / 10 then ⌊(429 / 10 : ℚ)⌋ else ⌈(429 / 10 : ℚ)⌉) = 42
      from truncToZero_example_pos] at h
    exact h
  · have h := (C8_valtostring exampleRuntime _).2.2.1 (6037638250443571 / 140737488355328) rfl
      (by rw [truncToZero_example_exact]; decide)
    rw [show (if (0 : ℚ) ≤ 6037638250443571 / 140737488355328
        then ⌊(6037638250443571 / 140737488355328 : ℚ)⌋
        else ⌈(6037638250443571 / 140737488355328 : ℚ)⌉) = 42
      from truncToZero_example_exact] at h
    exact h
  · have h := (C8_valtostring exampleRuntime _).2.2.1 (-3 / 2) rfl
      (by rw [truncToZero_example_neg]; decide)
    rw [show (if (0 : ℚ) ≤ -3 / 2 then ⌊(-3 / 2 : ℚ)⌋ else ⌈(-3 / 2 : ℚ)⌉) = -1
      from truncToZero_example_neg] at h
    exact h


/-! ## C9: the value of a kill -/

/-- C9. On every element on which `parseone` succeeds, the value of the record
is: the number itself when `zkb` is a map whose `totalValue` is a native
number (a float64, which is what every number of a decoded element is); the
parsed number when `totalValue` is a string that `strconv.ParseFloat` parses;
and 0 in every other case: `zkb` missing, `zkb` not a map, `totalValue`
missing, `totalValue` a string that does not parse, `totalValue` of any other
type. -/
theorem C9_value (rt : GoRuntime) (k : JObject) (kd : KillData)
    (hok : parseone rt k = .ok kd) :
    (∀ m f, k.lookup "zkb" = some (.map m) → m.lookup "totalValue" = some (.float f) →
      kd.Value = f) ∧
    (∀ m s f, k.lookup "zkb" = some (.map m) → m.lookup "totalValue" = some (.str s) →
      rt.parseFloat s = some f → kd.Value = f) ∧
    (k.lookup "zkb" = none → kd.Value = .finite 0) ∧
    (∀ sub, k.lookup "zkb" = some sub → (∀ m, sub ≠ .map m) → kd.Value = .finite 0) ∧
    (∀ m, k.lookup "zkb" = some (.map m) → m.lookup "totalValue" = none →
      kd.Value = .finite 0) ∧
    (∀ m s, k.lookup "zkb" = some (.map m) → m.lookup "totalValue" = some (.str s) →
      rt.parseFloat s = none → kd.Value = .finite 0) ∧
    (∀ m v, k.lookup "zkb" = some (.map m) → m.lookup "totalValue" = some v →
      (∀ f, v ≠ .float f) → (∀ s, v ≠ .str s) → kd.Value = .finite 0) := by
  obtain ⟨v, vs, ktv, kts, kt, _, _, _, _, _, hkd⟩ := (parseone_ok_iff rt k kd).mp hok
  have hv : kd.Value = parseValue rt k := by rw [hkd]
  rw [hv]
  refine ⟨?_, ?_, ?_, ?_, ?_, ?_, ?_⟩
  · intro m f h1 h2
    simp [parseValue, h1, h2]
  · intro m s f h1 h2 h3
    simp [parseValue, h1, h2, h3]
  · intro h1
    simp [parseValue, h1]
  · intro sub h1 hsub
    unfold parseValue
    rw [h1]
    cases sub with
    | map m => exact absurd rfl (hsub m)
    | _ => rfl
  · intro m h1 h2
    simp [parseValue, h1, h2]
  · intro m s h1 h2 h3
    simp [parseValue, h1, h2, h3]
  · intro m v h1 h2 hf hs
    unfold parseValue
    rw [h1]
    simp only
    rw [h2]
    cases v with
    | float f => exact absurd rfl (hf f)
    | str s => exact absurd rfl (hs s)
    | _ => rfl

/-- C9 on examples: a float `totalValue` of 2,500,000 is the value of the
record; the string `1200` gives 1200; the string `lots` gives 0; an element
without `zkb` gives 0; a `zkb` that is a string gives 0. -/
theorem C9_value_witness :
    exampleFloatValueKill.Value = .finite 2500000 ∧
    exampleStringValueKill.Value = .finite (1200 : Nat) ∧
    exampleBadValueKill.Value = .finite 0 ∧
    exampleRecentKill.Value = .finite 0 ∧
    (parseone exampleRuntime exampleCorruptedElement = .ok exampleRecentKill ∧
      exampleRecentKill.Value = .finite 0) :=
  ⟨(C9_value exampleRuntime exampleFloatValueElement exampleFloatValueKill (by rfl)).1
     [("totalValue", .float (.finite 2500000))] (.finite 2500000) (by rfl) (by rfl),
   (C9_value exampleRuntime exampleStringValueElement exampleStringValueKill (by rfl)).2.1
     [("totalValue", .str "1200")] "1200" (.finite (1200 : Nat)) (by rfl) (by rfl) (by rfl),
   (C9_value exampleRuntime exampleBadValueElement exampleBadValueKill (by rfl)).2.2.2.2.2.1
     [("totalValue", .str "lots")] "lots" (by rfl) (by rfl) (by rfl),
   (C9_value exampleRuntime exampleRecentElement exampleRecentKill (by rfl)).2.2.1 (by rfl),
   ⟨by rfl,
    (C9_value exampleRuntime exampleCorruptedElement exampleRecentKill (by rfl)).2.2.2.1
      (.str "?") (by rfl) (fun m h => by cases h)⟩⟩

/-! ## C10: the order of emission -/

theorem outputLoop_ok (conf : Config) (sink : Nat → HttpResult) (kills : List KillData)
    (hok : ∀ n, ∃ b, sink n = .response 200 b) (n : Nat) (hn : n ≤ kills.length)
    (posted : Nat) :
    (outputLoop conf sink kills n posted).2 = none ∧
    postedBodies (outputLoop conf sink kills n posted).1
      = ((kills.take n).reverse).map killUrl := by
  induction n generalizing posted with
  | zero => simp [outputLoop, postedBodies]
  | succ i ih =>
    have hi : i < kills.length := hn
    obtain ⟨b, hb⟩ := hok posted
    have hget : kills[i]? = some kills[i] := List.getElem?_eq_getElem hi
    obtain ⟨h1, h2⟩ := ih (Nat.le_of_lt hi) (posted + 1)
    have hstep : outputLoop conf sink kills (i + 1) posted
        = ((if i ≠ 0 then [Event.sleep (500 * Millisecond)] else [])
            ++ [Event.post conf.sburl "text/plain" (killUrl kills[i])]
            ++ (outputLoop conf sink kills i (posted + 1)).1,
           (outputLoop conf sink kills i (posted + 1)).2) := by
      rw [outputLoop]
      simp only [hget, hb, killUrl]
      simp
    rw [hstep]
    refine ⟨h1, ?_⟩
    have hpause : postedBodies (if i ≠ 0 then [Event.sleep (500 * Millisecond)] else []) = [] := by
      by_cases h0 : i = 0 <;> simp [h0, postedBodies]
    have happ : ∀ a b : List Event, postedBodies (a ++ b) = postedBodies a ++ postedBodies b := by
      intro a b
      simp [postedBodies, List.filterMap_append]
    have ht : (kills.take (i + 1)).reverse = kills[i] :: (kills.take i).reverse := by
      rw [List.take_succ, hget]
      simp
    rw [happ, happ, hpause, h2, ht]
    rfl

/-- C10. When every post succeeds, `output` returns no error and posts the
records of its input in reverse order, one post per record; so an input in
descending order of kill time (newest first, as fetched) is posted in
ascending order of kill time. -/
theorem C10_output_order (conf : Config) (sink : Nat → HttpResult) (kills : List KillData)
    (hok : ∀ n, ∃ b, sink n = .response 200 b) :
    (output conf sink kills).2 = none ∧
    postedBodies (output conf sink kills).1 = kills.reverse.map killUrl ∧
    (postedBodies (output conf sink kills).1).length = kills.length ∧
    (kills.Pairwise (fun a b => b.KillTime ≤ a.KillTime) →
      ∃ order : List KillData,
        postedBodies (output conf sink kills).1 = order.map killUrl ∧
        order.Pairwise (fun a b => a.KillTime ≤ b.KillTime)) := by
  obtain ⟨h1, h2⟩ := outputLoop_ok conf sink kills hok kills.length (Nat.le_refl _) 0
  rw [List.take_length] at h2
  have h2 : postedBodies (output conf sink kills).1 = kills.reverse.map killUrl := h2
  refine ⟨h1, h2, ?_, ?_⟩
  · rw [h2]; simp
  · intro hs
    exact ⟨kills.reverse, h2, List.pairwise_reverse.mpr hs⟩

/-- C10 on three kills fetched newest first: kill c (time 1) is posted first,
then b (time 2), then a (time 3). -/
theorem C10_output_order_witness :
    (output exampleConfig (fun _ => .response 200 "ok") exampleThreeKills).2 = none ∧
    postedBodies (output exampleConfig (fun _ => .response 200 "ok") exampleThreeKills).1
      = ["https://zkillboard.com/kill/c/", "https://zkillboard.com/kill/b/",
         "https://zkillboard.com/kill/a/"] :=
  ⟨(C10_output_order exampleConfig (fun _ => .response 200 "ok") exampleThreeKills
      (fun _ => ⟨"ok", rfl⟩)).1,
   (C10_output_order exampleConfig (fun _ => .response 200 "ok") exampleThreeKills
      (fun _ => ⟨"ok", rfl⟩)).2.1⟩


/-! ## C11 and C12: pacing and abort of the emission -/

/-- C11, on the code: with two records and both posts answered 200, `output`
sleeps 500 ms before the first post and not at all between the two posts; with
three records it sleeps before the first and the second post and not between
the second and the third. -/
theorem C11_pacing_trace :
    output exampleConfig exampleOkSink exampleTwoKills =
      ([Event.sleep (500 * Millisecond),
        Event.post exampleConfig.sburl "text/plain" "https://zkillboard.com/kill/b/",
        Event.post exampleConfig.sburl "text/plain" "https://zkillboard.com/kill/a/"], none) ∧
    output exampleConfig exampleOkSink exampleThreeKills =
      ([Event.sleep (500 * Millisecond),
        Event.post exampleConfig.sburl "text/plain" "https://zkillboard.com/kill/c/",
        Event.sleep (500 * Millisecond),
        Event.post exampleConfig.sburl "text/plain" "https://zkillboard.com/kill/b/",
        Event.post exampleConfig.sburl "text/plain" "https://zkillboard.com/kill/a/"], none) :=
  ⟨by decide, by decide⟩

theorem postedBodies_append (a b : List Event) :
    postedBodies (a ++ b) = postedBodies a ++ postedBodies b := by
  simp [postedBodies, List.filterMap_append]

theorem postedBodies_pause (i : Nat) :
    postedBodies (if i ≠ 0 then [Event.sleep (500 * Millisecond)] else []) = [] := by
  by_cases h0 : i = 0 <;> simp [h0, postedBodies]

theorem take_succ_reverse (kills : List KillData) (i : Nat) (hi : i < kills.length) :
    (kills.take (i + 1)).reverse = kills[i] :: (kills.take i).reverse := by
  rw [List.take_succ, List.getElem?_eq_getElem hi]
  simp

theorem outputLoop_success (conf : Config) (sink : Nat → HttpResult) (kills : List KillData)
    (n : Nat) (hn : n ≤ kills.length) (posted : Nat)
    (hok : ∀ j, j < n → ∃ b, sink (posted + j) = .response 200 b) :
    (outputLoop conf sink kills n posted).2 = none ∧
    postedBodies (outputLoop conf sink kills n posted).1
      = ((kills.take n).reverse).map killUrl := by
  induction n generalizing posted with
  | zero => simp [outputLoop, postedBodies]
  | succ i ih =>
    have hi : i < kills.length := hn
    obtain ⟨b, hb⟩ := hok 0 (Nat.succ_pos i)
    rw [Nat.add_zero] at hb
    have hget : kills[i]? = some kills[i] := List.getElem?_eq_getElem hi
    obtain ⟨h1, h2⟩ := ih (Nat.le_of_lt hi) (posted + 1) (by
      intro j hj
      have := hok (j + 1) (Nat.succ_lt_succ hj)
      rwa [Nat.add_assoc, Nat.add_comm 1 j])
    have hstep : outputLoop conf sink kills (i + 1) posted
        = ((if i ≠ 0 then [Event.sleep (500 * Millisecond)] else [])
            ++ [Event.post conf.sburl "text/plain" (killUrl kills[i])]
            ++ (outputLoop conf sink kills i (posted + 1)).1,
           (outputLoop conf sink kills i (posted + 1)).2) := by
      rw [outputLoop]
      simp only [hget, hb, killUrl]
      simp
    rw [hstep]
    refine ⟨h1, ?_⟩
    rw [postedBodies_append, postedBodies_append, postedBodies_pause, h2,
      take_succ_reverse kills i hi]
    rfl

theorem outputLoop_failure (conf : Config) (sink : Nat → HttpResult) (kills : List KillData)
    (n : Nat) (hn : n ≤ kills.length) (posted m : Nat) (hm : m < n)
    (hok : ∀ j, j < m → ∃ b, sink (posted + j) = .response 200 b)
    (hfail : sink (posted + m) = .error ∨
      ∃ code b, sink (posted + m) = .response code b ∧ code ≠ 200) :
    (outputLoop conf sink kills n posted).2 ≠ none ∧
    postedBodies (outputLoop conf sink kills n posted).1
      = (((kills.take n).reverse).take (m + 1)).map killUrl := by
  induction n generalizing posted m with
  | zero => exact absurd hm (Nat.not_lt_zero _)
  | succ i ih =>
    have hi : i < kills.length := hn
    have hget : kills[i]? = some kills[i] := List.getElem?_eq_getElem hi
    rw [take_succ_reverse kills i hi]
    cases m with
    | zero =>
      rw [Nat.add_zero] at hfail
      rw [outputLoop]
      simp only [hget]
      rcases hfail with he | ⟨code, b, he, hne⟩
      · simp only [he]
        refine ⟨by simp, ?_⟩
        rw [postedBodies_append, postedBodies_pause]
        rfl
      · simp only [he, hne, if_true, ne_eq, not_false_eq_true]
        refine ⟨by simp, ?_⟩
        rw [postedBodies_append, postedBodies_pause]
        rfl
    | succ m2 =>
      obtain ⟨b, hb⟩ := hok 0 (Nat.succ_pos m2)
      rw [Nat.add_zero] at hb
      obtain ⟨h1, h2⟩ := ih (Nat.le_of_lt hi) (posted + 1) m2 (Nat.lt_of_succ_lt_succ hm)
        (by
          intro j hj
          have := hok (j + 1) (Nat.succ_lt_succ hj)
          rwa [Nat.add_assoc, Nat.add_comm 1 j])
        (by rwa [Nat.add_assoc, Nat.add_comm 1 m2])
      have hstep : outputLoop conf sink kills (i + 1) posted
          = ((if i ≠ 0 then [Event.sleep (500 * Millisecond)] else [])
              ++ [Event.post conf.sburl "text/plain" (killUrl kills[i])]
              ++ (outputLoop conf sink kills i (posted + 1)).1,
             (outputLoop conf sink kills i (posted + 1)).2) := by
        rw [outputLoop]
        simp only [hget, hb, killUrl]
        simp
      rw [hstep]
      refine ⟨h1, ?_⟩
      rw [postedBodies_append, postedBodies_append, postedBodies_pause, h2]
      rfl

/-- The pacing of `output` on every list of two or more records, with every
post answered 200: the trace starts with a sleep, before the first post, and
ends with the posts of the second and the first record of the list, with no
sleep between them. -/
theorem output_last_posts_adjacent (conf : Config) (sink : Nat → HttpResult)
    (a b : KillData) (rest : List KillData) (hok : ∀ n, ∃ body, sink n = .response 200 body) :
    ∃ front : List Event,
      (output conf sink (a :: b :: rest)).1
        = Event.sleep (500 * Millisecond) :: front ++
            [Event.post conf.sburl "text/plain" (killUrl b),
             Event.post conf.sburl "text/plain" (killUrl a)] := by
  have step : ∀ (i posted : Nat) (hi : i < (a :: b :: rest).length),
      (outputLoop conf sink (a :: b :: rest) (i + 1) posted).1
        = (if i ≠ 0 then [Event.sleep (500 * Millisecond)] else [])
            ++ [Event.post conf.sburl "text/plain" (killUrl (a :: b :: rest)[i])]
            ++ (outputLoop conf sink (a :: b :: rest) i (posted + 1)).1 := by
    intro i posted hi
    obtain ⟨body, hb⟩ := hok posted
    have hget : (a :: b :: rest)[i]? = some (a :: b :: rest)[i] := List.getElem?_eq_getElem hi
    rw [outputLoop]
    simp only [hget, hb, killUrl]
    simp
  have two : ∀ posted, (outputLoop conf sink (a :: b :: rest) 2 posted).1
      = [Event.sleep (500 * Millisecond), Event.post conf.sburl "text/plain" (killUrl b),
         Event.post conf.sburl "text/plain" (killUrl a)] := by
    intro posted
    rw [step 1 posted (by simp), step 0 (posted + 1) (by simp)]
    simp [outputLoop]
  have gen : ∀ (m posted : Nat), m + 2 ≤ (a :: b :: rest).length →
      ∃ front : List Event,
        (outputLoop conf sink (a :: b :: rest) (m + 2) posted).1
          = Event.sleep (500 * Millisecond) :: front ++
              [Event.post conf.sburl "text/plain" (killUrl b),
               Event.post conf.sburl "text/plain" (killUrl a)] := by
    intro m
    induction m with
    | zero =>
      intro posted _
      exact ⟨[], by rw [two]; rfl⟩
    | succ m ih =>
      intro posted hm
      obtain ⟨front, hfront⟩ := ih (posted + 1) (by omega)
      refine ⟨Event.post conf.sburl "text/plain" (killUrl (a :: b :: rest)[m + 2])
        :: Event.sleep (500 * Millisecond) :: front, ?_⟩
      rw [step (m + 2) posted (by omega), hfront]
      simp
  exact gen rest.length 0 (by simp)

/-- C12. For a list of n records and 1 <= k <= n: when the first k-1 posts are
answered 200 and post k fails (a transport error or another status), `output`
attempts exactly the first k posts of its order (the last k records of the
list, in reverse), none of the others, and returns an error; when all n posts
are answered 200 it attempts exactly n posts and returns no error. -/
theorem C12_output_abort (conf : Config) (sink : Nat → HttpResult) (kills : List KillData) :
    (∀ k, 1 ≤ k → k ≤ kills.length →
      (∀ j, j < k - 1 → ∃ b, sink j = .response 200 b) →
      (sink (k - 1) = .error ∨ ∃ code b, sink (k - 1) = .response code b ∧ code ≠ 200) →
      postedBodies (output conf sink kills).1 = (kills.reverse.take k).map killUrl ∧
      (postedBodies (output conf sink kills).1).length = k ∧
      (output conf sink kills).2 ≠ none) ∧
    ((∀ j, j < kills.length → ∃ b, sink j = .response 200 b) →
      postedBodies (output conf sink kills).1 = kills.reverse.map killUrl ∧
      (postedBodies (output conf sink kills).1).length = kills.length ∧
      (output conf sink kills).2 = none) := by
  constructor
  · intro k hk1 hkn hok hfail
    obtain ⟨m, rfl⟩ : ∃ m, k = m + 1 := ⟨k - 1, by omega⟩
    simp only [Nat.add_sub_cancel] at hok hfail
    obtain ⟨h1, h2⟩ := outputLoop_failure conf sink kills kills.length (Nat.le_refl _) 0 m hkn
      (by intro j hj; simpa using hok j hj) (by simpa using hfail)
    rw [List.take_length] at h2
    have h2 : postedBodies (output conf sink kills).1
        = (kills.reverse.take (m + 1)).map killUrl := h2
    refine ⟨h2, ?_, h1⟩
    rw [h2, List.length_map, List.length_take, List.length_reverse]
    omega
  · intro hok
    obtain ⟨h1, h2⟩ := outputLoop_success conf sink kills kills.length (Nat.le_refl _) 0
      (by intro j hj; simpa using hok j hj)
    rw [List.take_length] at h2
    have h2 : postedBodies (output conf sink kills).1 = kills.reverse.map killUrl := h2
    refine ⟨h2, ?_, h1⟩
    rw [h2]
    simp

/-- C12 on three records with the second post answered 500: kills c and b are
posted, kill a is not, and the error is returned. -/
theorem C12_output_abort_witness :
    postedBodies (output exampleConfig exampleFailingSink exampleThreeKills).1
      = ["https://zkillboard.com/kill/c/", "https://zkillboard.com/kill/b/"] ∧
    (output exampleConfig exampleFailingSink exampleThreeKills).2 ≠ none ∧
    (output exampleConfig exampleFailingSink exampleThreeKills).2
      = some (.status 500 "no") :=
  ⟨((C12_output_abort exampleConfig exampleFailingSink exampleThreeKills).1 2
      (by decide) (by decide) (fun j hj => ⟨"ok", by
        have : j = 0 := by omega
        subst this
        rfl⟩)
      (Or.inr ⟨500, "no", rfl, by decide⟩)).1,
   ((C12_output_abort exampleConfig exampleFailingSink exampleThreeKills).1 2
      (by decide) (by decide) (fun j hj => ⟨"ok", by
        have : j = 0 := by omega
        subst this
        rfl⟩)
      (Or.inr ⟨500, "no", rfl, by decide⟩)).2.2,
   by decide⟩


/-! ## Lemmas on the filter and the cache together -/

theorem filterStep_cases (ignored : IgnoredSet) (now ib : Time) (st : KillCache × List KillData)
    (k : KillData) :
    filterStep ignored now ib st k = st ∨
    (k.KillID ∉ st.1.cache ∧ ib.After k.KillTime = false ∧ suppressed ignored k = false ∧
      filterStep ignored now ib st k = (⟨st.1.cache.insert k.KillID now⟩, st.2 ++ [k])) := by
  unfold filterStep
  by_cases h1 : ib.After k.KillTime = true
  · simp [h1]
  · by_cases h2 : suppressed ignored k = true
    · simp [h1, h2]
    · by_cases h3 : k.KillID ∈ st.1.cache
      · obtain ⟨v, hv⟩ := Option.isSome_iff_exists.mp (AList.lookup_isSome.mpr h3)
        left
        simp [h1, h2, KillCache.Check, hv]
      · right
        refine ⟨h3, by simpa using h1, by simpa using h2, ?_⟩
        simp [h1, h2, KillCache.Check, AList.lookup_eq_none.mpr h3]

theorem foldl_filterStep_spec (ignored : IgnoredSet) (now ib : Time) (kills : List KillData)
    (st : KillCache × List KillData) :
    ∃ ret : List KillData,
      (kills.foldl (filterStep ignored now ib) st).2 = st.2 ++ ret ∧
      ret.Sublist kills ∧
      (∀ k, (kills.foldl (filterStep ignored now ib) st).1.cache.lookup k =
        match st.1.cache.lookup k with
        | some t => some t
        | none => if k ∈ ret.map KillData.KillID then some now else none) ∧
      (∀ r ∈ ret, r.KillID ∉ st.1.cache) ∧
      (ret.map KillData.KillID).Nodup := by
  induction kills generalizing st with
  | nil =>
    refine ⟨[], by simp, List.Sublist.refl _, ?_, by simp, by simp⟩
    intro k
    show st.1.cache.lookup k = _
    cases h : st.1.cache.lookup k <;> simp
  | cons k ks ih =>
    rw [List.foldl_cons]
    rcases filterStep_cases ignored now ib st k with h | ⟨hnot, _, _, h⟩
    · rw [h]
      obtain ⟨ret, e1, e2, e3, e4, e5⟩ := ih st
      exact ⟨ret, e1, List.Sublist.cons _ e2, e3, e4, e5⟩
    · rw [h]
      obtain ⟨ret, e1, e2, e3, e4, e5⟩ := ih (⟨st.1.cache.insert k.KillID now⟩, st.2 ++ [k])
      have hne : ∀ r ∈ ret, r.KillID ≠ k.KillID := by
        intro r hr heq
        have := e4 r hr
        simp only [AList.mem_insert, not_or] at this
        exact this.1 heq
      refine ⟨k :: ret, ?_, List.Sublist.cons₂ _ e2, ?_, ?_, ?_⟩
      · rw [e1]; simp
      · intro x
        rw [e3 x]
        by_cases hx : x = k.KillID
        · subst hx
          simp [AList.lookup_insert, AList.lookup_eq_none.mpr hnot]
        · simp only [AList.lookup_insert_ne hx, List.map_cons, List.mem_cons, hx, false_or]
      · intro r hr
        rcases List.mem_cons.mp hr with rfl | hr
        · exact hnot
        · have := e4 r hr
          simp only [AList.mem_insert, not_or] at this
          exact this.2
      · rw [List.map_cons, List.nodup_cons]
        refine ⟨?_, e5⟩
        intro hmem
        obtain ⟨r, hr, heq⟩ := List.mem_map.mp hmem
        exact hne r hr heq

theorem filterKills_spec (ignored : IgnoredSet) (now : Time) (kc : KillCache)
    (kills : List KillData) :
    (filterKills ignored now kc kills).2.Sublist kills ∧
    (∀ k, (filterKills ignored now kc kills).1.cache.lookup k =
      match kc.cache.lookup k with
      | some t => some t
      | none =>
        if k ∈ (filterKills ignored now kc kills).2.map KillData.KillID then some now
        else none) ∧
    (∀ r ∈ (filterKills ignored now kc kills).2, r.KillID ∉ kc.cache) ∧
    ((filterKills ignored now kc kills).2.map KillData.KillID).Nodup := by
  obtain ⟨ret, e1, e2, e3, e4, e5⟩ :=
    foldl_filterStep_spec ignored now (now.Add (-Hour * 2)) kills (kc, [])
  have e1 : (filterKills ignored now kc kills).2 = ret := by
    simpa using e1
  rw [e1]
  exact ⟨e2, e3, e4, e5⟩

/-! ## C18 and C14: what the filter does to the cache -/

/-- C18. After the filter loop of a cycle at time `now`: the retained list is
a subsequence of the fetched list, in fetch order; every entry the cache had
is still there with its time; a key the cache did not have is in it afterwards
exactly when it is the id of a retained record, and then with the time `now`;
the retained ids are distinct and were not in the cache, so there is one new
entry per retained record; and the id of a record that the recency or the
suppression test excludes is not added on its account. -/
theorem C18_filter_frame (ignored : IgnoredSet) (now : Time) (kc : KillCache)
    (kills : List KillData) :
    (filterKills ignored now kc kills).2.Sublist kills ∧
    (∀ k t, kc.cache.lookup k = some t →
      (filterKills ignored now kc kills).1.cache.lookup k = some t) ∧
    (∀ k, k ∉ kc.cache →
      (filterKills ignored now kc kills).1.cache.lookup k =
        if k ∈ (filterKills ignored now kc kills).2.map KillData.KillID then some now
        else none) ∧
    (∀ k, k ∈ (filterKills ignored now kc kills).1.cache ↔
      k ∈ kc.cache ∨ k ∈ (filterKills ignored now kc kills).2.map KillData.KillID) ∧
    (∀ r ∈ (filterKills ignored now kc kills).2, r.KillID ∉ kc.cache) ∧
    ((filterKills ignored now kc kills).2.map KillData.KillID).Nodup ∧
    (∀ r ∈ kills,
      ((now.Add (-Hour * 2)).After r.KillTime = true ∨ suppressed ignored r = true) →
      r ∉ (filterKills ignored now kc kills).2 ∧
      (r.KillID ∉ kc.cache →
        (∀ r2 ∈ (filterKills ignored now kc kills).2, r2.KillID ≠ r.KillID) →
        r.KillID ∉ (filterKills ignored now kc kills).1.cache)) := by
  obtain ⟨h1, h2, h3, h4⟩ := filterKills_spec ignored now kc kills
  have hnew : ∀ k, k ∉ kc.cache →
      (filterKills ignored now kc kills).1.cache.lookup k =
        if k ∈ (filterKills ignored now kc kills).2.map KillData.KillID then some now
        else none := by
    intro k hk
    rw [h2 k, AList.lookup_eq_none.mpr hk]
  have hkeys : ∀ k, k ∈ (filterKills ignored now kc kills).1.cache ↔
      k ∈ kc.cache ∨ k ∈ (filterKills ignored now kc kills).2.map KillData.KillID := by
    intro k
    rw [← AList.lookup_isSome, h2 k]
    by_cases hk : k ∈ kc.cache
    · obtain ⟨v, hv⟩ := Option.isSome_iff_exists.mp (AList.lookup_isSome.mpr hk)
      simp [hv, hk]
    · rw [AList.lookup_eq_none.mpr hk]
      by_cases hm : k ∈ (filterKills ignored now kc kills).2.map KillData.KillID
      · simp only [hm, if_true, Option.isSome_some, or_true]
      · simp only [hm, if_false, Option.isSome_none, hk, or_self]
        simp
  refine ⟨h1, ?_, hnew, hkeys, h3, h4, ?_⟩
  · intro k t hk
    rw [h2 k, hk]
  · intro r _ hex
    have hnot : r ∉ (filterKills ignored now kc kills).2 := by
      intro hr
      obtain ⟨_, ha, hb⟩ := filterKills_mem ignored now kc kills r hr
      rcases hex with hex | hex
      · rw [ha] at hex; cases hex
      · rw [hb] at hex; cases hex
    refine ⟨hnot, ?_⟩
    intro hk hothers hmem
    rcases (hkeys r.KillID).mp hmem with h | h
    · exact hk h
    · obtain ⟨r2, hr2, heq⟩ := List.mem_map.mp h
      exact hothers r2 hr2 heq

theorem outputLoop_posts_isPrefix (conf : Config) (sink : Nat → HttpResult)
    (kills : List KillData) (n : Nat) (hn : n ≤ kills.length) (posted : Nat) :
    postedBodies (outputLoop conf sink kills n posted).1
      <+: ((kills.take n).reverse).map killUrl := by
  induction n generalizing posted with
  | zero => simp [outputLoop, postedBodies]
  | succ i ih =>
    have hi : i < kills.length := hn
    have hget : kills[i]? = some kills[i] := List.getElem?_eq_getElem hi
    rw [take_succ_reverse kills i hi, List.map_cons, outputLoop]
    simp only [hget]
    have hone : postedBodies ((if i ≠ 0 then [Event.sleep (500 * Millisecond)] else [])
        ++ [Event.post conf.sburl "text/plain" (ZkbUrl ++ ("kill/" ++ kills[i].KillID ++ "/"))])
        = [killUrl kills[i]] := by
      rw [postedBodies_append, postedBodies_pause]
      rfl
    cases hs : sink posted with
    | error =>
      simp only
      rw [hone]
      exact List.prefix_iff_eq_append.mpr (by simp)
    | response code b =>
      simp only
      by_cases hc : code = 200
      · simp only [hc, ne_eq, not_true_eq_false, if_false]
        rw [postedBodies_append, hone]
        exact (List.prefix_cons_inj _).mpr (ih (Nat.le_of_lt hi) (posted + 1))
      · simp only [ne_eq, hc, not_false_eq_true, if_true]
        rw [hone]
        exact List.prefix_iff_eq_append.mpr (by simp)

theorem output_posts_isPrefix (conf : Config) (sink : Nat → HttpResult)
    (kills : List KillData) :
    postedBodies (output conf sink kills).1 <+: kills.reverse.map killUrl := by
  have h := outputLoop_posts_isPrefix conf sink kills kills.length (Nat.le_refl _) 0
  rwa [List.take_length] at h

theorem cyclePosts_isPrefix (s : Setup) (st : LoopState) (inp : CycleInput) :
    cyclePosts (cycle s st inp) <+: (cycle s st inp).filtered.reverse.map killUrl := by
  unfold cyclePosts cycle
  simp only
  split
  · rename_i events err heq
    split at heq
    · split at heq
      · cases heq
      · cases heq
        exact output_posts_isPrefix _ _ _
    · cases heq
  · exact List.nil_prefix

theorem cycle_filtered (s : Setup) (st : LoopState) (inp : CycleInput) :
    (cycle s st inp).filtered = (filterKills s.ignored inp.now st.kc (fetchKills s inp)).2 := rfl

theorem cycle_state (s : Setup) (st : LoopState) (inp : CycleInput) :
    (cycle s st inp).state =
      { firstrun := false,
        kc := (filterKills s.ignored inp.now st.kc (fetchKills s inp)).1.Evict
          (inp.now.Add (-2 * Hour)) } := rfl

/-- C14. In a polling cycle, whatever the state, no record whose id is a key
of the cache at the start of the cycle is in the retained list, the retained
records have pairwise distinct ids, and what the cycle prints or posts is
taken from the retained list. -/
theorem C14_no_reemission (s : Setup) (st : LoopState) (inp : CycleInput) :
    (∀ r ∈ (cycle s st inp).filtered, r.KillID ∉ st.kc.cache) ∧
    ((cycle s st inp).filtered.map KillData.KillID).Nodup ∧
    (cycle s st inp).filtered.Pairwise (fun a b => a.KillID ≠ b.KillID) ∧
    (∀ ks, (cycle s st inp).emission = .printed ks → ks = (cycle s st inp).filtered) ∧
    (∀ body ∈ cyclePosts (cycle s st inp),
      ∃ r ∈ (cycle s st inp).filtered, body = killUrl r ∧ r.KillID ∉ st.kc.cache) := by
  obtain ⟨_, _, h3, h4⟩ := filterKills_spec s.ignored inp.now st.kc (fetchKills s inp)
  rw [cycle_filtered]
  refine ⟨h3, h4, (List.pairwise_map.mp h4 : _), ?_, ?_⟩
  · intro ks hks
    unfold cycle at hks
    simp only at hks
    split at hks
    · split at hks
      · cases hks; rfl
      · cases hks
    · cases hks
  · intro body hbody
    have hsub := (cyclePosts_isPrefix s st inp).subset hbody
    rw [cycle_filtered] at hsub
    obtain ⟨r, hr, rfl⟩ := List.mem_map.mp hsub
    exact ⟨r, List.mem_reverse.mp hr, rfl, h3 r (List.mem_reverse.mp hr)⟩

/-- C18 at a cache holding `100 -> 5` and the fetch of kill 41 (too old), kill
43 (ignored system, five million ISK), kill 100 (seen) and kill 42: kill 42
alone is retained, `100 -> 5` is untouched, `42 -> now` is added, and kills 41
and 43 are not in the cache. -/
theorem C18_filter_frame_witness :
    (filterKills exampleIgnored exampleNow exampleCache
      [exampleOldKill, exampleCheapKill, exampleSeenKill, exampleRecentKill]).2.map
        KillData.KillID = ["42"] ∧
    (filterKills exampleIgnored exampleNow exampleCache
      [exampleOldKill, exampleCheapKill, exampleSeenKill, exampleRecentKill]).1.cache.lookup
        "100" = some 5 ∧
    (filterKills exampleIgnored exampleNow exampleCache
      [exampleOldKill, exampleCheapKill, exampleSeenKill, exampleRecentKill]).1.cache.lookup
        "42" = some exampleNow ∧
    exampleOldKill ∉ (filterKills exampleIgnored exampleNow exampleCache
      [exampleOldKill, exampleCheapKill, exampleSeenKill, exampleRecentKill]).2 ∧
    "41" ∉ (filterKills exampleIgnored exampleNow exampleCache
      [exampleOldKill, exampleCheapKill, exampleSeenKill, exampleRecentKill]).1.cache ∧
    "43" ∉ (filterKills exampleIgnored exampleNow exampleCache
      [exampleOldKill, exampleCheapKill, exampleSeenKill, exampleRecentKill]).1.cache :=
  ⟨by decide,
   (C18_filter_frame exampleIgnored exampleNow exampleCache
      [exampleOldKill, exampleCheapKill, exampleSeenKill, exampleRecentKill]).2.1 "100" 5
      (by decide),
   by decide,
   ((C18_filter_frame exampleIgnored exampleNow exampleCache
      [exampleOldKill, exampleCheapKill, exampleSeenKill, exampleRecentKill]).2.2.2.2.2.2
      exampleOldKill (List.mem_cons_self _ _) (Or.inl (by decide))).1,
   ((C18_filter_frame exampleIgnored exampleNow exampleCache
      [exampleOldKill, exampleCheapKill, exampleSeenKill, exampleRecentKill]).2.2.2.2.2.2
      exampleOldKill (List.mem_cons_self _ _) (Or.inl (by decide))).2 (by decide) (by decide),
   by decide⟩

/-- C14 on a cycle that starts with kill 100 in the cache and fetches kills 100
and 42: kill 42 alone is retained and posted, and 42 was not in the cache. -/
theorem C14_no_reemission_witness :
    (cycle exampleSetup exampleLaterState (exampleInput exampleNow "dup")).kills.map
      KillData.KillID = ["100", "42"] ∧
    (cycle exampleSetup exampleLaterState (exampleInput exampleNow "dup")).filtered.map
      KillData.KillID = ["42"] ∧
    cyclePosts (cycle exampleSetup exampleLaterState (exampleInput exampleNow "dup"))
      = ["https://zkillboard.com/kill/42/"] ∧
    ∃ r ∈ (cycle exampleSetup exampleLaterState (exampleInput exampleNow "dup")).filtered,
      "https://zkillboard.com/kill/42/" = killUrl r ∧ r.KillID ∉ exampleLaterState.kc.cache :=
  ⟨by decide, by decide, by decide,
   (C14_no_reemission exampleSetup exampleLaterState (exampleInput exampleNow "dup")).2.2.2.2
     "https://zkillboard.com/kill/42/" (by decide)⟩


/-! ## Lemmas on one cycle -/

theorem lookup_Evict_eq_some (kc : KillCache) (before : Time) (k : String) (t : Time) :
    (kc.Evict before).cache.lookup k = some t ↔ kc.cache.lookup k = some t ∧ before ≤ t := by
  rw [lookup_Evict]
  by_cases h : k ∈ kc.evictKeys before
  · obtain ⟨u, hu, hlt⟩ := (mem_evictKeys kc before k).mp h
    rw [if_pos h]
    constructor
    · intro h0; cases h0
    · rintro ⟨h1, h2⟩
      rw [hu] at h1
      cases h1
      exact absurd hlt (not_lt.mpr h2)
  · rw [if_neg h]
    constructor
    · intro h1
      exact ⟨h1, not_lt.mp (fun hlt => h ((mem_evictKeys kc before k).mpr ⟨t, h1, hlt⟩))⟩
    · exact fun h1 => h1.1

theorem mem_Evict (kc : KillCache) (before : Time) (k : String)
    (h : k ∈ (kc.Evict before).cache) : k ∈ kc.cache := by
  obtain ⟨t, ht⟩ := Option.isSome_iff_exists.mp (AList.lookup_isSome.mpr h)
  have := ((lookup_Evict_eq_some kc before k t).mp ht).1
  exact AList.lookup_isSome.mp (by rw [this]; rfl)

theorem filterKills_nil (ignored : IgnoredSet) (now : Time) (kc : KillCache) :
    filterKills ignored now kc [] = (kc, []) := rfl

theorem output_posts_ne_nil (conf : Config) (sink : Nat → HttpResult) (kills : List KillData)
    (hne : kills ≠ []) : postedBodies (output conf sink kills).1 ≠ [] := by
  obtain ⟨i, hi⟩ : ∃ i, kills.length = i + 1 := by
    cases kills with
    | nil => exact absurd rfl hne
    | cons a l => exact ⟨l.length, rfl⟩
  have hlt : i < kills.length := by omega
  have hget : kills[i]? = some kills[i] := List.getElem?_eq_getElem hlt
  unfold output
  rw [hi, outputLoop]
  simp only [hget]
  cases hs : sink 0 with
  | error =>
    simp only
    rw [postedBodies_append, postedBodies_pause]
    simp [postedBodies]
  | response code b =>
    simp only
    by_cases hc : code = 200
    · simp only [hc, ne_eq, not_true_eq_false, if_false]
      rw [postedBodies_append, postedBodies_append, postedBodies_pause]
      simp [postedBodies]
    · simp only [ne_eq, hc, not_false_eq_true, if_true]
      rw [postedBodies_append, postedBodies_pause]
      simp [postedBodies]

theorem finalState_append_singleton (s : Setup) (st : LoopState) (pre : List CycleInput)
    (inp : CycleInput) :
    finalState s st (pre ++ [inp]) = (cycle s (finalState s st pre) inp).state := by
  simp [finalState, List.foldl_append]

/-! ## C13, C16, C17: the first cycle, a failed fetch, the eviction -/

/-- C13. A cycle entered with `firstrun` true, the first of `main` among them,
emits nothing: no post and no print. Its retained list and the state it leaves
are those of a cycle entered with `firstrun` false on the same cache and
inputs, so the cache is filled all the same, and `firstrun` is false
afterwards. A cycle entered with `firstrun` false whose retained list is not
empty emits: in test mode it prints the retained list, otherwise it calls
`output`, which makes at least one post. -/
theorem C13_first_cycle (s : Setup) (st : LoopState) (inp : CycleInput) :
    (st.firstrun = true →
      (cycle s st inp).emission = .nothing ∧ cyclePosts (cycle s st inp) = []) ∧
    (cycle s initialState inp).emission = .nothing ∧
    (∀ st2 : LoopState, st2.kc = st.kc →
      (cycle s st2 inp).filtered = (cycle s st inp).filtered ∧
      (cycle s st2 inp).state = (cycle s st inp).state) ∧
    (cycle s st inp).state.firstrun = false ∧
    (st.firstrun = false → (cycle s st inp).filtered ≠ [] →
      (s.testing = true → (cycle s st inp).emission = .printed (cycle s st inp).filtered) ∧
      (s.testing = false →
        ∃ events err, (cycle s st inp).emission = .posted events err ∧
          postedBodies events ≠ [] ∧ cyclePosts (cycle s st inp) ≠ [])) := by
  refine ⟨?_, ?_, ?_, rfl, ?_⟩
  · intro h
    have he : (cycle s st inp).emission = .nothing := by
      unfold cycle
      simp [h]
    exact ⟨he, by unfold cyclePosts; rw [he]⟩
  · unfold cycle initialState
    simp
  · intro st2 h
    rw [cycle_filtered, cycle_filtered, cycle_state, cycle_state, h]
    exact ⟨rfl, rfl⟩
  · intro h hne
    have hlen : (filterKills s.ignored inp.now st.kc (fetchKills s inp)).2.length > 0 :=
      List.length_pos.mpr hne
    constructor
    · intro ht
      unfold cycle
      simp [h, ht, hlen]
    · intro ht
      have he : (cycle s st inp).emission
          = .posted (output s.conf inp.sink (cycle s st inp).filtered).1
              (output s.conf inp.sink (cycle s st inp).filtered).2 := by
        unfold cycle
        simp [h, ht, hlen]
      refine ⟨_, _, he, output_posts_ne_nil _ _ _ hne, ?_⟩
      unfold cyclePosts
      rw [he]
      exact output_posts_ne_nil _ _ _ hne

/-- C13 on the start of `main`: the first cycle fetches kill 42, retains it,
stores it in the cache and posts nothing; the same fetch in a later cycle posts
kill 42, and in test mode prints it. -/
theorem C13_first_cycle_witness :
    (cycle exampleSetup initialState (exampleInput exampleNow "k42")).filtered.map
      KillData.KillID = ["42"] ∧
    (cycle exampleSetup initialState (exampleInput exampleNow "k42")).emission = .nothing ∧
    cyclePosts (cycle exampleSetup initialState (exampleInput exampleNow "k42")) = [] ∧
    (cycle exampleSetup initialState (exampleInput exampleNow "k42")).state.kc.cache.lookup "42"
      = some exampleNow ∧
    cyclePosts (cycle exampleSetup exampleLaterState (exampleInput exampleNow "k42"))
      = ["https://zkillboard.com/kill/42/"] ∧
    (cycle exampleTestSetup exampleLaterState (exampleInput exampleNow "k42")).emission
      = .printed (cycle exampleTestSetup exampleLaterState (exampleInput exampleNow "k42")).filtered :=
  ⟨by decide,
   ((C13_first_cycle exampleSetup initialState (exampleInput exampleNow "k42")).1 rfl).1,
   ((C13_first_cycle exampleSetup initialState (exampleInput exampleNow "k42")).1 rfl).2,
   by decide, by decide,
   ((C13_first_cycle exampleTestSetup exampleLaterState (exampleInput exampleNow "k42")).2.2.2.2
      rfl (by
        intro h
        have : (cycle exampleTestSetup exampleLaterState
          (exampleInput exampleNow "k42")).filtered.length = 0 := by rw [h]; rfl
        exact absurd this (by decide))).1 rfl⟩

/-- C16. A fetch that fails (a transport error, a status other than 200, or a
body that does not decode) makes `getanddecode` return an error, and the cycle
then has no kills, retains and emits nothing, adds no id to the cache, still
runs the eviction and leaves `firstrun` false; it is the same cycle as one
whose fetch returns the empty list at the same time, and the loop goes on with
the next input. -/
theorem C16_fetch_failure (s : Setup) (st : LoopState) (inp : CycleInput) :
    ((inp.get (fetchUrl s inp.now) = .error →
        getanddecode s.rt inp.get (fetchUrl s inp.now) = .error .transport) ∧
     (∀ code body, inp.get (fetchUrl s inp.now) = .response code body → code ≠ 200 →
        getanddecode s.rt inp.get (fetchUrl s inp.now) = .error (.non200 code body)) ∧
     (∀ body, inp.get (fetchUrl s inp.now) = .response 200 body →
        s.rt.jsonDecode body = none →
        getanddecode s.rt inp.get (fetchUrl s inp.now) = .error .decode)) ∧
    (∀ e, getanddecode s.rt inp.get (fetchUrl s inp.now) = .error e →
      (cycle s st inp).kills = [] ∧
      (cycle s st inp).filtered = [] ∧
      (cycle s st inp).emission = .nothing ∧
      cyclePosts (cycle s st inp) = [] ∧
      (cycle s st inp).state
        = { firstrun := false, kc := st.kc.Evict (inp.now.Add (-2 * Hour)) } ∧
      (∀ k, k ∈ (cycle s st inp).state.kc.cache → k ∈ st.kc.cache) ∧
      (∀ inp2 : CycleInput, inp2.now = inp.now →
        getanddecode s.rt inp2.get (fetchUrl s inp2.now) = .ok [] →
        cycle s st inp2 = cycle s st inp) ∧
      (∀ rest, runCycles s st (inp :: rest)
        = cycle s st inp ::
            runCycles s { firstrun := false, kc := st.kc.Evict (inp.now.Add (-2 * Hour)) }
              rest)) := by
  constructor
  · refine ⟨?_, ?_, ?_⟩
    · intro h
      simp [getanddecode, h]
    · intro code body h hc
      simp [getanddecode, h, hc]
    · intro body h hd
      simp [getanddecode, h, hd]
  · intro e he
    have hk : fetchKills s inp = [] := by
      unfold fetchKills
      rw [he]
    have hstate : (cycle s st inp).state
        = { firstrun := false, kc := st.kc.Evict (inp.now.Add (-2 * Hour)) } := by
      rw [cycle_state, hk, filterKills_nil]
    have hem : (cycle s st inp).emission = .nothing := by
      unfold cycle
      simp [hk, filterKills_nil]
    refine ⟨hk, ?_, hem, ?_, hstate, ?_, ?_, ?_⟩
    · rw [cycle_filtered, hk, filterKills_nil]
    · unfold cyclePosts
      rw [hem]
    · intro k hmem
      rw [hstate] at hmem
      exact mem_Evict _ _ _ hmem
    · intro inp2 hnow hok
      have hk2 : fetchKills s inp2 = [] := by
        unfold fetchKills
        rw [hok]
      unfold cycle
      simp [hk, hk2, hnow, filterKills_nil]
    · intro rest
      rw [runCycles, hstate]

/-- C16 on a fetch answered 503, in a later cycle at time `exampleNow` with the
cache holding `100 -> 5`: nothing is retained or posted, the eviction drops
kill 100, and the cycle equals the one whose fetch returns the empty list. -/
theorem C16_fetch_failure_witness :
    getanddecode exampleSetup.rt (exampleDownInput exampleNow).get
      (fetchUrl exampleSetup exampleNow) = .error (.non200 503 "down") ∧
    (cycle exampleSetup exampleLaterState (exampleDownInput exampleNow)).filtered = [] ∧
    (cycle exampleSetup exampleLaterState (exampleDownInput exampleNow)).emission = .nothing ∧
    (cycle exampleSetup exampleLaterState (exampleDownInput exampleNow)).state.kc.cache.lookup
      "100" = none ∧
    cycle exampleSetup exampleLaterState (exampleInput exampleNow "empty")
      = cycle exampleSetup exampleLaterState (exampleDownInput exampleNow) :=
  ⟨(C16_fetch_failure exampleSetup exampleLaterState (exampleDownInput exampleNow)).1.2.1
      503 "down" rfl (by decide),
   ((C16_fetch_failure exampleSetup exampleLaterState (exampleDownInput exampleNow)).2
      (.non200 503 "down") (by rfl)).2.1,
   ((C16_fetch_failure exampleSetup exampleLaterState (exampleDownInput exampleNow)).2
      (.non200 503 "down") (by rfl)).2.2.1,
   by decide,
   ((C16_fetch_failure exampleSetup exampleLaterState (exampleDownInput exampleNow)).2
      (.non200 503 "down") (by rfl)).2.2.2.2.2.2.1 (exampleInput exampleNow "empty") rfl
      (by rfl)⟩

/-- C17. Every cycle ends with the eviction at the cutoff `now` minus two
hours, applied to the cache the filter left, whatever the state, the fetch and
the emission were; so after a cycle at time `now`, and after the last cycle of
any run, every entry of the cache has a time not older than `now` minus two
hours. -/
theorem C17_eviction (s : Setup) (st : LoopState) (inp : CycleInput) :
    (cycle s st inp).state.kc
      = (filterKills s.ignored inp.now st.kc (fetchKills s inp)).1.Evict
          (inp.now.Add (-2 * Hour)) ∧
    (∀ k t, (cycle s st inp).state.kc.cache.lookup k = some t →
      inp.now.Add (-2 * Hour) ≤ t ∧ inp.now - 7200000000000 ≤ t) ∧
    (∀ (pre : List CycleInput) (k : String) (t : Time),
      (finalState s st (pre ++ [inp])).kc.cache.lookup k = some t →
      inp.now.Add (-2 * Hour) ≤ t) := by
  have key : ∀ (st0 : LoopState) (k : String) (t : Time),
      (cycle s st0 inp).state.kc.cache.lookup k = some t → inp.now.Add (-2 * Hour) ≤ t := by
    intro st0 k t h
    rw [cycle_state] at h
    exact ((lookup_Evict_eq_some _ _ k t).mp h).2
  refine ⟨rfl, ?_, ?_⟩
  · intro k t h
    have h1 := key st k t h
    refine ⟨h1, ?_⟩
    have e : inp.now.Add (-2 * Hour) = inp.now - 7200000000000 := by
      simp only [Time.Add, Hour, Minute, Second, Millisecond]
      ring
    rw [← e]
    exact h1
  · intro pre k t h
    rw [finalState_append_singleton] at h
    exact key _ k t h

/-- C17 on a cycle at time `exampleNow` that starts with `100 -> 5` in the
cache and fetches kill 42: afterwards kill 100 is gone and kill 42 is stamped
`exampleNow`, which is not older than the cutoff. -/
theorem C17_eviction_witness :
    (cycle exampleSetup exampleLaterState (exampleInput exampleNow "k42")).state.kc.cache.lookup
      "100" = none ∧
    (cycle exampleSetup exampleLaterState (exampleInput exampleNow "k42")).state.kc.cache.lookup
      "42" = some exampleNow ∧
    exampleNow - 7200000000000 ≤ exampleNow :=
  ⟨by decide, by decide,
   ((C17_eviction exampleSetup exampleLaterState (exampleInput exampleNow "k42")).2.1
      "42" exampleNow (by decide)).2⟩


/-! ## C20: a numeric kill time -/

theorem digitChar_isDigit (d : Nat) (h : d < 10) : (Nat.digitChar d).isDigit = true := by
  interval_cases d <;> rfl

theorem toDigitsCore_isDigit (fuel n : Nat) (ds : List Char)
    (hds : ∀ c ∈ ds, c.isDigit = true) :
    ∀ c ∈ Nat.toDigitsCore 10 fuel n ds, c.isDigit = true := by
  induction fuel generalizing n ds with
  | zero => simpa [Nat.toDigitsCore] using hds
  | succ f ih =>
    have hd : (Nat.digitChar (n % 10)).isDigit = true :=
      digitChar_isDigit _ (Nat.mod_lt _ (by decide))
    have hcons : ∀ c ∈ Nat.digitChar (n % 10) :: ds, c.isDigit = true := by
      intro c hc
      rcases List.mem_cons.mp hc with rfl | hc
      · exact hd
      · exact hds c hc
    rw [Nat.toDigitsCore]
    split
    · exact hcons
    · exact ih _ _ hcons

theorem repr_isDigit (m : Nat) : ∀ c ∈ (Nat.repr m).data, c.isDigit = true := by
  have : (Nat.repr m).data = Nat.toDigitsCore 10 (m + 1) m [] := rfl
  rw [this]
  exact toDigitsCore_isDigit _ _ _ (by simp)

theorem toString_int_shape (n : Int) :
    ∃ ds : List Char, (∀ c ∈ ds, c.isDigit = true) ∧
      ((toString n).data = ds ∨ (toString n).data = '-' :: ds) := by
  cases n with
  | ofNat m => exact ⟨(Nat.repr m).data, repr_isDigit m, Or.inl rfl⟩
  | negSucc m =>
    refine ⟨(Nat.repr (m + 1)).data, repr_isDigit _, Or.inr ?_⟩
    show ("-" ++ Nat.repr (m + 1)).data = _
    rw [String.data_append]
    rfl

theorem parseKillTime_of_year_fails (t : String)
    (h : getyear t.data = none ∨ ∃ y v, getyear t.data = some (y, v) ∧ skipChar '-' v = none) :
    parseKillTime t = none := by
  unfold parseKillTime
  rcases h with h | ⟨y, v, h1, h2⟩
  · rw [h]
  · rw [h1]
    simp only
    rw [h2]

theorem parseKillTime_digits (t : String) (ds : List Char)
    (hds : ∀ c ∈ ds, c.isDigit = true) (ht : t.data = ds ∨ t.data = '-' :: ds) :
    parseKillTime t = none := by
  apply parseKillTime_of_year_fails
  have hminus : ('-' : Char).isDigit = false := by decide
  rcases ht with ht | ht
  · rw [ht]
    match ds, hds with
    | [], _ => exact Or.inl rfl
    | [_], _ => exact Or.inl rfl
    | [_, _], _ => exact Or.inl rfl
    | [_, _, _], _ => exact Or.inl rfl
    | [a, b, c, d], hds =>
      right
      refine ⟨digitVal a * 1000 + digitVal b * 100 + digitVal c * 10 + digitVal d, [], ?_, rfl⟩
      simp [getyear, hds]
    | a :: b :: c :: d :: e :: rest, hds =>
      right
      refine ⟨digitVal a * 1000 + digitVal b * 100 + digitVal c * 10 + digitVal d,
        e :: rest, ?_, ?_⟩
      · simp [getyear, hds]
      · have he : e.isDigit = true := hds e (by simp)
        have hne : e ≠ '-' := by
          intro h
          rw [h, hminus] at he
          cases he
        simp [skipChar, hne]
  · rw [ht]
    left
    match ds with
    | [] => rfl
    | [_] => rfl
    | [_, _] => rfl
    | a :: b :: c :: rest => simp [getyear, hminus]

/-- C20. A numeric `killTime` is always rejected: when the `killTime` of an
element is an integer or a float, `valtostring` gives a string made of an
optional minus sign and decimal digits, that string does not parse as a kill
time, and `parseone` fails; so on every element `parseone` accepts, the
`killTime` is a string. -/
theorem C20_numeric_killTime (rt : GoRuntime) (k : JObject) :
    (∀ v, ((∃ n, v = .int n) ∨ (∃ f, v = .float f)) →
      ∃ t ds, valtostring rt v = some t ∧ (∀ c ∈ ds, c.isDigit = true) ∧
        (t.data = ds ∨ t.data = '-' :: ds) ∧ parseKillTime t = none) ∧
    (∀ v, k.lookup "killTime" = some v → ((∃ n, v = .int n) ∨ (∃ f, v = .float f)) →
      (∀ kd, parseone rt k ≠ .ok kd) ∧ ∃ e, parseone rt k = .error e) ∧
    (∀ kd, parseone rt k = .ok kd → ∃ str, k.lookup "killTime" = some (.str str)) := by
  have hnum : ∀ v, ((∃ n, v = .int n) ∨ (∃ f, v = .float f)) →
      ∃ t ds, valtostring rt v = some t ∧ (∀ c ∈ ds, c.isDigit = true) ∧
        (t.data = ds ∨ t.data = '-' :: ds) ∧ parseKillTime t = none := by
    intro v hv
    rcases hv with ⟨n, rfl⟩ | ⟨f, rfl⟩
    · obtain ⟨ds, h1, h2⟩ := toString_int_shape n
      exact ⟨toString n, ds, rfl, h1, h2, parseKillTime_digits _ ds h1 h2⟩
    · obtain ⟨ds, h1, h2⟩ := toString_int_shape (rt.floatToInt f)
      exact ⟨toString (rt.floatToInt f), ds, rfl, h1, h2, parseKillTime_digits _ ds h1 h2⟩
  have hfail : ∀ v, k.lookup "killTime" = some v →
      ((∃ n, v = .int n) ∨ (∃ f, v = .float f)) → ∀ kd, parseone rt k ≠ .ok kd := by
    intro v hk hv kd hok
    obtain ⟨t, ds, ht, _, _, hp⟩ := hnum v hv
    obtain ⟨_, _, ktv, kts, kt, _, _, h3, h4, h5, _⟩ := (parseone_ok_iff rt k kd).mp hok
    rw [hk] at h3
    cases h3
    rw [ht] at h4
    cases h4
    rw [hp] at h5
    cases h5
  refine ⟨hnum, ?_, ?_⟩
  · intro v hk hv
    refine ⟨hfail v hk hv, ?_⟩
    cases h : parseone rt k with
    | error e => exact ⟨e, rfl⟩
    | ok kd => exact absurd h (hfail v hk hv kd)
  · intro kd hok
    obtain ⟨_, _, ktv, kts, kt, _, _, h3, h4, h5, _⟩ := (parseone_ok_iff rt k kd).mp hok
    cases ktv with
    | str str => exact ⟨str, h3⟩
    | int n => exact absurd hok (hfail _ h3 (Or.inl ⟨n, rfl⟩) kd)
    | float f => exact absurd hok (hfail _ h3 (Or.inr ⟨f, rfl⟩) kd)
    | bool b => cases h4
    | null => cases h4
    | list xs => cases h4
    | map kvs => cases h4

/-- C20 on an element whose `killTime` is the integer 20240101023000: the
conversion gives the digits, they do not parse, and `parseone` fails. -/
theorem C20_numeric_killTime_witness :
    valtostring exampleRuntime (.int 20240101023000) = some "20240101023000" ∧
    parseKillTime "20240101023000" = none ∧
    (∀ kd, parseone exampleRuntime exampleNumericTimeElement ≠ .ok kd) ∧
    parseone exampleRuntime exampleNumericTimeElement = .error .badTime :=
  ⟨by decide, by decide,
   ((C20_numeric_killTime exampleRuntime exampleNumericTimeElement).2.1
      (.int 20240101023000) (by rfl) (Or.inl ⟨_, rfl⟩)).1,
   by rfl⟩

/-! ## Lemmas on runs -/

theorem cutoff_eq (now : Time) : now.Add (-2 * Hour) = now.Add (-Hour * 2) := by
  simp only [Time.Add]
  ring

theorem cutoff_le (now : Time) : now.Add (-Hour * 2) ≤ now := by
  simp only [Time.Add, Hour, Minute, Second, Millisecond]
  norm_num

theorem cutoff_mono (a b : Time) (h : a ≤ b) : a.Add (-Hour * 2) ≤ b.Add (-Hour * 2) := by
  simp only [Time.Add]
  exact add_le_add_right h _

theorem blocked_mono {kc : KillCache} {id : String} {bound lo lo2 : Time}
    (hb : Blocked kc id bound lo) (h : lo ≤ lo2) : Blocked kc id bound lo2 := by
  rcases hb with hb | hb
  · exact Or.inl hb
  · exact Or.inr (lt_of_lt_of_le hb (cutoff_mono lo lo2 h))

theorem cycle_blocked (s : Setup) (st : LoopState) (inp : CycleInput) (id : String)
    (bound : Time) (hb : Blocked st.kc id bound inp.now)
    (hrec : ∀ r ∈ fetchKills s inp, r.KillID = id → r.KillTime ≤ bound) :
    (∀ r ∈ (cycle s st inp).filtered, r.KillID ≠ id) ∧
    Blocked (cycle s st inp).state.kc id bound inp.now := by
  obtain ⟨_, h2, h3, _⟩ := filterKills_spec s.ignored inp.now st.kc (fetchKills s inp)
  rcases hb with ⟨t, ht, hbt⟩ | hlt
  · constructor
    · intro r hr heq
      rw [cycle_filtered] at hr
      have hn := h3 r hr
      rw [heq] at hn
      exact hn (AList.lookup_isSome.mp (by rw [ht]; rfl))
    · rw [cycle_state]
      by_cases hc : inp.now.Add (-2 * Hour) ≤ t
      · refine Or.inl ⟨t, (lookup_Evict_eq_some _ _ id t).mpr ⟨?_, hc⟩, hbt⟩
        rw [h2 id, ht]
      · refine Or.inr (lt_of_le_of_lt hbt ?_)
        rw [← cutoff_eq]
        exact not_le.mp hc
  · constructor
    · intro r hr heq
      rw [cycle_filtered] at hr
      obtain ⟨hmem, hafter, _⟩ := filterKills_mem s.ignored inp.now st.kc _ r hr
      have hle := hrec r hmem heq
      simp only [Time.After, decide_eq_false_iff_not] at hafter
      exact hafter (lt_of_le_of_lt hle hlt)
    · exact Or.inr hlt

theorem finalState_cons (s : Setup) (st : LoopState) (x : CycleInput) (xs : List CycleInput) :
    finalState s st (x :: xs) = finalState s (cycle s st x).state xs := rfl

theorem finalState_append (s : Setup) (st : LoopState) (xs ys : List CycleInput) :
    finalState s st (xs ++ ys) = finalState s (finalState s st xs) ys := by
  simp [finalState, List.foldl_append]

theorem blocked_at_start (s : Setup) (id : String) (bound : Time) (pre : List CycleInput) :
    ∀ (st : LoopState) (lo : Time) (c : CycleInput),
      (pre ++ [c]).Pairwise (fun a b => a.now ≤ b.now) →
      (∀ x ∈ pre ++ [c], lo ≤ x.now) →
      (∀ x ∈ pre, ∀ r ∈ fetchKills s x, r.KillID = id → r.KillTime ≤ bound) →
      Blocked st.kc id bound lo →
      Blocked (finalState s st pre).kc id bound c.now := by
  induction pre with
  | nil =>
    intro st lo c _ hlo _ hb
    exact blocked_mono hb (hlo c (by simp))
  | cons x pre ih =>
    intro st lo c hpw hlo hrec hb
    rw [List.cons_append, List.pairwise_cons] at hpw
    have hbx : Blocked st.kc id bound x.now := blocked_mono hb (hlo x (by simp))
    obtain ⟨_, hb2⟩ := cycle_blocked s st x id bound hbx (hrec x (List.mem_cons_self _ _))
    rw [finalState_cons]
    exact ih (cycle s st x).state x.now c hpw.2 hpw.1
      (fun y hy => hrec y (List.mem_cons_of_mem _ hy)) hb2

theorem retained_blocked (s : Setup) (st : LoopState) (inp : CycleInput) (r : KillData)
    (hr : r ∈ (cycle s st inp).filtered) :
    Blocked (cycle s st inp).state.kc r.KillID inp.now inp.now := by
  obtain ⟨_, h2, h3, _⟩ := filterKills_spec s.ignored inp.now st.kc (fetchKills s inp)
  rw [cycle_filtered] at hr
  refine Or.inl ⟨inp.now, ?_, le_refl _⟩
  rw [cycle_state]
  refine (lookup_Evict_eq_some _ _ _ _).mpr ⟨?_, ?_⟩
  · rw [h2 r.KillID, AList.lookup_eq_none.mpr (h3 r hr)]
    simp only
    rw [if_pos (List.mem_map.mpr ⟨r, hr, rfl⟩)]
  · rw [cutoff_eq]
    exact cutoff_le _

theorem mem_cycle_filtered (s : Setup) (st : LoopState) (inp : CycleInput) (r : KillData)
    (hr : r ∈ (cycle s st inp).filtered) : r ∈ fetchKills s inp := by
  rw [cycle_filtered] at hr
  exact (filterKills_mem s.ignored inp.now st.kc _ r hr).1

/-- A record retained in the cycle `c` keeps its id blocked at the start of
every later cycle `c2`. -/
theorem head_retained_blocked (s : Setup) (st : LoopState) (c : CycleInput)
    (mid : List CycleInput) (c2 : CycleInput) (post : List CycleInput)
    (hmono : TimesNondecreasing (c :: (mid ++ c2 :: post)))
    (hsame : SameKillTime s (c :: (mid ++ c2 :: post)))
    (hpast : FetchedInPast s (c :: (mid ++ c2 :: post)))
    (r : KillData) (hr : r ∈ (cycle s st c).filtered) :
    Blocked (finalState s (cycle s st c).state mid).kc r.KillID c.now c2.now ∧
    ∀ r2 ∈ fetchKills s c2, r2.KillID = r.KillID → r2.KillTime ≤ c.now := by
  have hrk : r ∈ fetchKills s c := mem_cycle_filtered s st c r hr
  have hrt : r.KillTime ≤ c.now := hpast c (List.mem_cons_self _ _) r hrk
  have hbound : ∀ x ∈ mid ++ c2 :: post, ∀ r2 ∈ fetchKills s x,
      r2.KillID = r.KillID → r2.KillTime ≤ c.now := by
    intro x hx r2 hr2 heq
    have := hsame c (List.mem_cons_self _ _) x (List.mem_cons_of_mem _ hx) r hrk r2 hr2 heq.symm
    rw [← this]
    exact hrt
  unfold TimesNondecreasing at hmono
  rw [List.pairwise_cons] at hmono
  obtain ⟨hhead, htail⟩ := hmono
  have htail2 : (mid ++ [c2]).Pairwise (fun a b => a.now ≤ b.now) := by
    have : (mid ++ [c2]).Sublist (mid ++ c2 :: post) :=
      List.Sublist.append_left (List.cons_sublist_cons.mpr (List.nil_sublist _)) mid
    exact htail.sublist this
  constructor
  · apply blocked_at_start s r.KillID c.now mid (cycle s st c).state c.now c2 htail2
    · intro x hx
      apply hhead
      rcases List.mem_append.mp hx with h | h
      · exact List.mem_append_left _ h
      · rw [List.mem_singleton] at h
        subst h
        exact List.mem_append_right _ (List.mem_cons_self _ _)
    · intro x hx
      exact hbound x (List.mem_append_left _ hx)
    · exact retained_blocked s st c r hr
  · exact hbound c2 (List.mem_append_right _ (List.mem_cons_self _ _))


theorem runCycles_append (s : Setup) (pre post : List CycleInput) :
    ∀ st : LoopState, runCycles s st (pre ++ post)
      = runCycles s st pre ++ runCycles s (finalState s st pre) post := by
  induction pre with
  | nil => intro st; rfl
  | cons x pre ih =>
    intro st
    rw [List.cons_append, runCycles, runCycles, ih, finalState_cons, List.cons_append]

theorem mem_runCycles (s : Setup) (inputs : List CycleInput) :
    ∀ (st : LoopState) (r : CycleResult), r ∈ runCycles s st inputs →
      ∃ pre c post, inputs = pre ++ c :: post ∧ r = cycle s (finalState s st pre) c := by
  induction inputs with
  | nil => intro st r hr; cases hr
  | cons x xs ih =>
    intro st r hr
    rw [runCycles, List.mem_cons] at hr
    rcases hr with rfl | hr
    · exact ⟨[], x, xs, rfl, rfl⟩
    · obtain ⟨pre, c, post, h1, h2⟩ := ih _ r hr
      exact ⟨x :: pre, c, post, by rw [h1]; rfl, by rw [h2, finalState_cons]⟩

theorem timesNondecreasing_tail {c : CycleInput} {rest : List CycleInput}
    (h : TimesNondecreasing (c :: rest)) : TimesNondecreasing rest :=
  (List.pairwise_cons.mp h).2

theorem sameKillTime_subset {s : Setup} {l1 l2 : List CycleInput}
    (h : SameKillTime s l2) (hsub : ∀ x ∈ l1, x ∈ l2) : SameKillTime s l1 :=
  fun c hc c2 hc2 => h c (hsub c hc) c2 (hsub c2 hc2)

theorem fetchedInPast_subset {s : Setup} {l1 l2 : List CycleInput}
    (h : FetchedInPast s l2) (hsub : ∀ x ∈ l1, x ∈ l2) : FetchedInPast s l1 :=
  fun c hc => h c (hsub c hc)

theorem run_retained_pairwise (s : Setup) (inputs : List CycleInput) :
    ∀ st : LoopState, TimesNondecreasing inputs → SameKillTime s inputs →
      FetchedInPast s inputs →
      (runCycles s st inputs).Pairwise
        (fun r1 r2 => ∀ k1 ∈ r1.filtered, ∀ k2 ∈ r2.filtered, k1.KillID ≠ k2.KillID) := by
  induction inputs with
  | nil => intro st _ _ _; exact List.Pairwise.nil
  | cons c rest ih =>
    intro st hm hs hp
    rw [runCycles, List.pairwise_cons]
    refine ⟨?_, ih _ (timesNondecreasing_tail hm)
      (sameKillTime_subset hs (fun x hx => List.mem_cons_of_mem _ hx))
      (fetchedInPast_subset hp (fun x hx => List.mem_cons_of_mem _ hx))⟩
    intro r2 hr2 k1 hk1 k2 hk2
    obtain ⟨mid, c2, post, hrest, rfl⟩ := mem_runCycles s rest _ r2 hr2
    subst hrest
    obtain ⟨hb, hbound⟩ := head_retained_blocked s st c mid c2 post hm hs hp k1 hk1
    exact ((cycle_blocked s _ c2 k1.KillID c.now hb hbound).1 k2 hk2).symm

theorem fetchedInPast_of_first (s : Setup) (inputs : List CycleInput)
    (hm : TimesNondecreasing inputs) (hs : SameKillTime s inputs)
    (hf : FirstFetchInPast s inputs) : FetchedInPast s inputs := by
  have key : ∀ (n : Nat) (pre : List CycleInput) (c : CycleInput) (post : List CycleInput),
      pre.length = n → inputs = pre ++ c :: post →
      ∀ r ∈ fetchKills s c, r.KillTime ≤ c.now := by
    intro n
    induction n using Nat.strong_induction_on with
    | _ n ih =>
      intro pre c post hlen hin r hr
      by_cases hfirst : ∀ c2 ∈ pre, ∀ r2 ∈ fetchKills s c2, r2.KillID ≠ r.KillID
      · exact hf pre c post hin r hr hfirst
      · push_neg at hfirst
        obtain ⟨c2, hc2, r2, hr2, heq⟩ := hfirst
        obtain ⟨p1, p2, hp⟩ := List.append_of_mem hc2
        have hin2 : inputs = p1 ++ c2 :: (p2 ++ c :: post) := by
          rw [hin, hp]
          simp
        have h2 : r2.KillTime ≤ c2.now :=
          ih p1.length (by rw [← hlen, hp]; simp) p1 c2 (p2 ++ c :: post) rfl hin2 r2 hr2
        have hcin : c ∈ inputs := by rw [hin]; simp
        have hc2in : c2 ∈ inputs := by rw [hin2]; simp
        have hle : c2.now ≤ c.now := by
          unfold TimesNondecreasing at hm
          rw [hin2, List.pairwise_append, List.pairwise_cons] at hm
          exact hm.2.1.1 c (by simp)
        have hsame : r.KillTime = r2.KillTime := hs c hcin c2 hc2in r hr r2 hr2 heq.symm
        rw [hsame]
        exact le_trans h2 hle
  intro c hc r hr
  obtain ⟨pre, post, h⟩ := List.append_of_mem hc
  exact key pre.length pre c post rfl h r hr

theorem firstFetch_of_fetchedInPast (s : Setup) (inputs : List CycleInput)
    (h : FetchedInPast s inputs) : FirstFetchInPast s inputs := by
  intro pre c post hin r hr _
  exact h c (by rw [hin]; simp) r hr

theorem killUrl_inj (a b : KillData) (h : killUrl a = killUrl b) : a.KillID = b.KillID := by
  unfold killUrl at h
  have h2 := congrArg String.data h
  simp only [String.data_append] at h2
  have h3 := List.append_cancel_left h2
  have h4 := List.append_cancel_right h3
  have h5 := List.append_cancel_left h4
  exact String.ext h5

theorem mem_cyclePosts (s : Setup) (st : LoopState) (inp : CycleInput) (body : String)
    (h : body ∈ cyclePosts (cycle s st inp)) :
    ∃ r ∈ (cycle s st inp).filtered, body = killUrl r := by
  have hsub := (cyclePosts_isPrefix s st inp).subset h
  obtain ⟨r, hr, rfl⟩ := List.mem_map.mp hsub
  exact ⟨r, List.mem_reverse.mp hr, rfl⟩

theorem cyclePosts_nodup (s : Setup) (st : LoopState) (inp : CycleInput) :
    (cyclePosts (cycle s st inp)).Nodup := by
  obtain ⟨_, _, _, h4⟩ := filterKills_spec s.ignored inp.now st.kc (fetchKills s inp)
  have h5 : ((cycle s st inp).filtered.map killUrl).Nodup := by
    rw [cycle_filtered]
    have hp := List.pairwise_map.mp h4
    exact List.pairwise_map.mpr (hp.imp (fun hne heq => hne (killUrl_inj _ _ heq)))
  have h6 : ((cycle s st inp).filtered.reverse.map killUrl).Nodup := by
    rw [List.map_reverse]
    exact List.nodup_reverse.mpr h5
  exact h6.sublist (cyclePosts_isPrefix s st inp).sublist

theorem run_posts_pairwise (s : Setup) (st : LoopState) (inputs : List CycleInput)
    (hm : TimesNondecreasing inputs) (hs : SameKillTime s inputs)
    (hp : FetchedInPast s inputs) :
    (runCycles s st inputs).Pairwise (fun r1 r2 => ∀ b ∈ cyclePosts r1, b ∉ cyclePosts r2) := by
  refine (run_retained_pairwise s inputs st hm hs hp).imp_of_mem ?_
  intro r1 r2 h1 h2 hdis b hb1 hb2
  obtain ⟨_, _, _, _, rfl⟩ := mem_runCycles s inputs st r1 h1
  obtain ⟨_, _, _, _, rfl⟩ := mem_runCycles s inputs st r2 h2
  obtain ⟨k1, hk1, rfl⟩ := mem_cyclePosts _ _ _ _ hb1
  obtain ⟨k2, hk2, heq⟩ := mem_cyclePosts _ _ _ _ hb2
  exact hdis k1 hk1 k2 hk2 (killUrl_inj _ _ heq)

theorem run_posts_nodup (s : Setup) (st : LoopState) (inputs : List CycleInput)
    (hm : TimesNondecreasing inputs) (hs : SameKillTime s inputs)
    (hp : FetchedInPast s inputs) :
    (runPosts (runCycles s st inputs)).Nodup := by
  unfold runPosts
  rw [List.nodup_flatten]
  constructor
  · intro l hl
    obtain ⟨r, hr, rfl⟩ := List.mem_map.mp hl
    obtain ⟨_, _, _, _, rfl⟩ := mem_runCycles s inputs st r hr
    exact cyclePosts_nodup _ _ _
  · rw [List.pairwise_map]
    exact (run_posts_pairwise s st inputs hm hs hp).imp
      (fun h => List.disjoint_left.mpr (fun b hb1 hb2 => h b hb1 hb2))


/-! ## C15 and C19: delivery at most once -/

/-- C15, as stated, fails on a feed that dates a kill ahead of the clock: in
a run of `main` with non-decreasing cycle times (03:00, 03:05, 06:00, 06:05)
whose last three fetches return kill 99 dated the next day, kill 99 is posted
at 03:05, evicted from the cache at the end of the 06:00 cycle, and posted
again at 06:05. -/
theorem C15_future_kill_counterexample :
    TimesNondecreasing exampleFutureRun ∧
    runPosts (runCycles exampleSetup initialState exampleFutureRun)
      = ["https://zkillboard.com/kill/99/", "https://zkillboard.com/kill/99/"] ∧
    (runPosts (runCycles exampleSetup initialState exampleFutureRun)).count
      "https://zkillboard.com/kill/99/" = 2 :=
  ⟨by decide, by decide, by decide⟩

/-- C15, amended. In a run of `main` with non-decreasing cycle times in which
every fetched record with a given id carries the same kill time, not later
than the time of the first cycle that fetches it, the URL of each kill is
posted at most once over the whole run; and a record retained in a cycle,
whether its post succeeded, failed or was never attempted, is not posted in
any later cycle. -/
theorem C15_at_most_once (s : Setup) (inputs : List CycleInput)
    (hmono : TimesNondecreasing inputs) (hsame : SameKillTime s inputs)
    (hfirst : FirstFetchInPast s inputs) :
    (∀ k : KillData, (runPosts (runCycles s initialState inputs)).count (killUrl k) ≤ 1) ∧
    (∀ pre r post, runCycles s initialState inputs = pre ++ r :: post →
      ∀ k ∈ r.filtered, ∀ r2 ∈ post, killUrl k ∉ cyclePosts r2) := by
  have hpast := fetchedInPast_of_first s inputs hmono hsame hfirst
  constructor
  · intro k
    exact List.nodup_iff_count_le_one.mp (run_posts_nodup s initialState inputs hmono hsame hpast) _
  · intro pre r post hrun k hk r2 hr2 hpost
    have hpw := run_retained_pairwise s inputs initialState hmono hsame hpast
    rw [hrun, List.pairwise_append, List.pairwise_cons] at hpw
    have hdis := hpw.2.1.1 r2 hr2 k hk
    have hmem : r2 ∈ runCycles s initialState inputs := by
      rw [hrun]
      exact List.mem_append_right _ (List.mem_cons_of_mem _ hr2)
    obtain ⟨_, _, _, _, rfl⟩ := mem_runCycles s inputs _ r2 hmem
    obtain ⟨k2, hk2, heq⟩ := mem_cyclePosts _ _ _ _ hpost
    exact hdis k2 hk2 (killUrl_inj _ _ heq)

/-- C15, amended, on a natural run: kill 42 is fetched in the first cycle and
never posted, kill 100 is posted once at 03:05 and not again at 08:00 or
08:05. -/
theorem C15_at_most_once_witness :
    runPosts (runCycles exampleSetup initialState exampleNaturalRun)
      = ["https://zkillboard.com/kill/100/"] ∧
    (runPosts (runCycles exampleSetup initialState exampleNaturalRun)).count
      (killUrl exampleSeenKill) ≤ 1 ∧
    (runPosts (runCycles exampleSetup initialState exampleNaturalRun)).count
      (killUrl exampleRecentKill) ≤ 1 :=
  ⟨by decide,
   (C15_at_most_once exampleSetup exampleNaturalRun (by decide) (by decide)
      (firstFetch_of_fetchedInPast _ _ (by decide))).1 exampleSeenKill,
   (C15_at_most_once exampleSetup exampleNaturalRun (by decide) (by decide)
      (firstFetch_of_fetchedInPast _ _ (by decide))).1 exampleRecentKill⟩

/-- C19. In a run of `main` with non-decreasing cycle times in which every
fetched record with a given id carries the same kill time, not later than the
time of the first cycle that fetches it: no URL is posted in two cycles, none
is posted twice in one cycle, and when the id of a record retained in a cycle
at time t0 is no longer in the cache at the start of a later cycle at time t,
then t0 is older than t minus two hours and the recency test excludes every
record with that id fetched in the later cycle. -/
theorem C19_no_repost_after_eviction (s : Setup) (inputs : List CycleInput)
    (hmono : TimesNondecreasing inputs) (hsame : SameKillTime s inputs)
    (hfirst : FirstFetchInPast s inputs) :
    (runCycles s initialState inputs).Pairwise
      (fun r1 r2 => ∀ b ∈ cyclePosts r1, b ∉ cyclePosts r2) ∧
    (∀ r ∈ runCycles s initialState inputs, (cyclePosts r).Nodup) ∧
    (∀ p1 c0 p2 c post, inputs = (p1 ++ c0 :: p2) ++ c :: post →
      ∀ k0 ∈ (cycle s (finalState s initialState p1) c0).filtered,
        k0.KillID ∉ (finalState s initialState (p1 ++ c0 :: p2)).kc.cache →
        c0.now < c.now.Add (-Hour * 2) ∧
        ∀ k ∈ fetchKills s c, k.KillID = k0.KillID →
          (c.now.Add (-Hour * 2)).After k.KillTime = true ∧
          k ∉ (cycle s (finalState s initialState (p1 ++ c0 :: p2)) c).filtered) := by
  have hpast := fetchedInPast_of_first s inputs hmono hsame hfirst
  refine ⟨run_posts_pairwise s initialState inputs hmono hsame hpast, ?_, ?_⟩
  · intro r hr
    obtain ⟨_, _, _, _, rfl⟩ := mem_runCycles s inputs _ r hr
    exact cyclePosts_nodup _ _ _
  · intro p1 c0 p2 c post hin k0 hk0 hnot
    have hin2 : inputs = p1 ++ (c0 :: (p2 ++ c :: post)) := by
      rw [hin]
      simp
    have hsub : ∀ x ∈ c0 :: (p2 ++ c :: post), x ∈ inputs := by
      intro x hx
      rw [hin2]
      exact List.mem_append_right _ hx
    have hm2 : TimesNondecreasing (c0 :: (p2 ++ c :: post)) := by
      unfold TimesNondecreasing at hmono ⊢
      rw [hin2, List.pairwise_append] at hmono
      exact hmono.2.1
    obtain ⟨hb, hbound⟩ := head_retained_blocked s (finalState s initialState p1) c0 p2 c post
      hm2 (sameKillTime_subset hsame hsub) (fetchedInPast_subset hpast hsub) k0 hk0
    have hstate : finalState s (cycle s (finalState s initialState p1) c0).state p2
        = finalState s initialState (p1 ++ c0 :: p2) := by
      rw [finalState_append, finalState_cons]
    rw [hstate] at hb
    have hlt : c0.now < c.now.Add (-Hour * 2) := by
      rcases hb with ⟨t, ht, _⟩ | hlt
      · exact absurd (AList.lookup_isSome.mp (by rw [ht]; rfl)) hnot
      · exact hlt
    refine ⟨hlt, ?_⟩
    intro k hk heq
    have hk1 : k.KillTime < c.now.Add (-Hour * 2) := lt_of_le_of_lt (hbound k hk heq) hlt
    refine ⟨by simpa [Time.After] using hk1, ?_⟩
    intro hmem
    rw [cycle_filtered] at hmem
    have h := (filterKills_mem s.ignored c.now _ _ k hmem).2.1
    simp only [Time.After, decide_eq_false_iff_not] at h
    exact h hk1

/-- C19 on the natural run: kill 100 is retained and posted at 03:05; at the
start of the 08:05 cycle it is no longer in the cache, 03:05 is older than
06:05, and the record of kill 100 fetched at 08:05 is excluded by the recency
test and not retained. -/
theorem C19_no_repost_after_eviction_witness :
    (cycle exampleSetup (finalState exampleSetup initialState
        [exampleInput 1704078000000000000 "k42"])
      (exampleInput 1704078300000000000 "dup")).filtered = [exampleSeenKill] ∧
    (1704078300000000000 : Time) < Time.Add 1704096300000000000 (-Hour * 2) ∧
    (Time.Add 1704096300000000000 (-Hour * 2)).After exampleSeenKill.KillTime = true ∧
    exampleSeenKill ∉ (cycle exampleSetup (finalState exampleSetup initialState
        ([exampleInput 1704078000000000000 "k42"] ++
          exampleInput 1704078300000000000 "dup" ::
            [exampleInput 1704096000000000000 "dup"]))
      (exampleInput 1704096300000000000 "dup")).filtered :=
  ⟨by rfl,
   ((C19_no_repost_after_eviction exampleSetup exampleNaturalRun (by decide) (by decide)
      (firstFetch_of_fetchedInPast _ _ (by decide))).2.2
      [exampleInput 1704078000000000000 "k42"] (exampleInput 1704078300000000000 "dup")
      [exampleInput 1704096000000000000 "dup"] (exampleInput 1704096300000000000 "dup") []
      rfl exampleSeenKill (by rw [show (cycle exampleSetup (finalState exampleSetup initialState
        [exampleInput 1704078000000000000 "k42"])
      (exampleInput 1704078300000000000 "dup")).filtered = [exampleSeenKill] from by rfl]; simp)
      (by decide)).1,
   (((C19_no_repost_after_eviction exampleSetup exampleNaturalRun (by decide) (by decide)
      (firstFetch_of_fetchedInPast _ _ (by decide))).2.2
      [exampleInput 1704078000000000000 "k42"] (exampleInput 1704078300000000000 "dup")
      [exampleInput 1704096000000000000 "dup"] (exampleInput 1704096300000000000 "dup") []
      rfl exampleSeenKill (by rw [show (cycle exampleSetup (finalState exampleSetup initialState
        [exampleInput 1704078000000000000 "k42"])
      (exampleInput 1704078300000000000 "dup")).filtered = [exampleSeenKill] from by rfl]; simp)
      (by decide)).2 exampleSeenKill (by
        rw [show fetchKills exampleSetup (exampleInput 1704096300000000000 "dup")
          = [exampleSeenKill, exampleRecentKill] from by rfl]
        simp) rfl).1,
   (((C19_no_repost_after_eviction exampleSetup exampleNaturalRun (by decide) (by decide)
      (firstFetch_of_fetchedInPast _ _ (by decide))).2.2
      [exampleInput 1704078000000000000 "k42"] (exampleInput 1704078300000000000 "dup")
      [exampleInput 1704096000000000000 "dup"] (exampleInput 1704096300000000000 "dup") []
      rfl exampleSeenKill (by rw [show (cycle exampleSetup (finalState exampleSetup initialState
        [exampleInput 1704078000000000000 "k42"])
      (exampleInput 1704078300000000000 "dup")).filtered = [exampleSeenKill] from by rfl]; simp)
      (by decide)).2 exampleSeenKill (by
        rw [show fetchKills exampleSetup (exampleInput 1704096300000000000 "dup")
          = [exampleSeenKill, exampleRecentKill] from by rfl]
        simp) rfl).2⟩

end Slackkb
